import Mathlib

/-!
# checklist-harian: daily checklist, recap and streak

A shallow embedding of the helper functions and of the `Dashboard` effects of
`src/App.jsx`, followed by theorems about them.

Conventions of the embedding.

* JavaScript values that the code inspects dynamically (the `priority` field)
  are values of `JSVal`.
* `crypto.randomUUID()` reads an explicit entropy stream (`Rng`).
* A `Date` is represented by its local calendar day number and its local time
  of day (`JSDate`); the methods that set a local time convert it through the
  time zone of the runtime, which is a parameter (`TimeZone`).
* Numbers that the code only uses as integers are `Nat`/`Int`; the one
  expression that is evaluated in binary64 floating point
  (`Math.round((done / total) * 100)`) is embedded with correctly rounded
  binary64 operations on exact dyadic values (`Dbl`).
* The remote tables are keyed maps; transport failures are explicit inputs.
-/

namespace Checklist

/-! ## JavaScript values and priorities -/

/-- A JavaScript value as far as the code can observe it: primitives by value,
anything else (objects, arrays) by reference. Numbers are restricted to
integers, which is all the embedded code ever produces. -/
inductive JSVal where
  | undefined
  | null
  | bool (b : Bool)
  | num (n : Int)
  | str (s : String)
  | obj (ref : Nat)
  deriving DecidableEq, Repr, Inhabited

/-- The constant array `PRIORITIES = ["high", "med", "low"]`. -/
def PRIORITIES : List JSVal := [JSVal.str "high", JSVal.str "med", JSVal.str "low"]

/-- The function `normalizePriority(p)`:
`PRIORITIES.includes(p) ? p : "med"`. `Array.prototype.includes` compares with
SameValueZero, which on the values of `JSVal` is equality. -/
def normalizePriority (p : JSVal) : JSVal :=
  if PRIORITIES.contains p then p else JSVal.str "med"

/-! ## Strings and numbers of the runtime -/

/-- The method `String.prototype.padStart(targetLength, fillString)`. -/
def padStart (s : String) (targetLength : Nat) (fillString : String) : String :=
  if targetLength ≤ s.length then s
  else
    let fillLen := targetLength - s.length
    String.mk ((List.replicate fillLen fillString.data).flatten.take fillLen) ++ s

/-- The conversion `String(n)` of an integral number: decimal digits, with a leading
minus sign for a negative number. -/
def numberToString (n : Int) : String := toString n

/-! ## Dates -/

/-- A `Date` seen through the local time zone: `day` is the number of the local
calendar day (days since 1970-01-01) and `msOfDay` the local time of day in
milliseconds. -/
structure JSDate where
  day : Int
  msOfDay : Nat
  deriving DecidableEq, Repr, Inhabited

/-- The proleptic Gregorian (year, month 1..12, day of month) of a day number, as
`YearFromTime`, `MonthFromTime` and `DateFromTime` of ECMAScript determine them. -/
def civilFromDays (day : Int) : Int × Int × Int :=
  let z := day + 719468
  let era := z / 146097
  let doe := z - era * 146097
  let yoe := (doe - doe / 1460 + doe / 36524 - doe / 146096) / 365
  let y := yoe + era * 400
  let doy := doe - (365 * yoe + yoe / 4 - yoe / 100)
  let mp := (5 * doy + 2) / 153
  let d := doy - (153 * mp + 2) / 5 + 1
  let m := if mp < 10 then mp + 3 else mp - 9
  (if m ≤ 2 then y + 1 else y, m, d)

/-- The method `Date.prototype.getFullYear()`. -/
def JSDate.getFullYear (d : JSDate) : Int := (civilFromDays d.day).1

/-- The method `Date.prototype.getMonth()`, from 0 (January) to 11. -/
def JSDate.getMonth (d : JSDate) : Int := (civilFromDays d.day).2.1 - 1

/-- The method `Date.prototype.getDate()`, the day of the month. -/
def JSDate.getDate (d : JSDate) : Int := (civilFromDays d.day).2.2

/-- The time zone of the runtime, as ECMAScript's `LocalTZA(t, isUTC)`: the offset of
local time from UTC in milliseconds, at the UTC time value `t` when `isUTC` is true and
for the local time value `t` when it is false. For a local time that a transition of the
zone skips or repeats, ECMAScript takes the offset before the transition. -/
structure TimeZone where
  localTZA : Int → Bool → Int

/-- The number of milliseconds of a day. -/
def msPerDay : Int := 86400000

/-- The date that a setter leaves for the local time value `t` it computed: the time
value of the date becomes `UTC(t) = t - LocalTZA(t, false)`, and the date is then seen at
`LocalTime(u) = u + LocalTZA(u, true)`. A local time that the zone skips comes back as a
later local time. -/
def JSDate.ofLocal (zone : TimeZone) (t : Int) : JSDate :=
  let u := t - zone.localTZA t false
  let l := u + zone.localTZA u true
  { day := l / msPerDay, msOfDay := (l % msPerDay).toNat }

/-- The method `Date.prototype.setHours(h, m, s, ms)` for arguments inside their
ranges: the local time is set to that time of the same calendar day. -/
def JSDate.setHours (d : JSDate) (zone : TimeZone) (h m s ms : Nat) : JSDate :=
  JSDate.ofLocal zone (d.day * msPerDay + ((((h * 60 + m) * 60 + s) * 1000 + ms : Nat) : Int))

/-- The method `Date.prototype.setDate(dt)`: `MakeDay(year, month, dt)` is the
day number of the first of the current month plus `dt - 1`, for every integer
`dt` (values outside the month roll over); the local time is set to the same time of
day of that day. -/
def JSDate.setDate (d : JSDate) (zone : TimeZone) (dt : Int) : JSDate :=
  JSDate.ofLocal zone (((d.day - (d.getDate - 1)) + dt - 1) * msPerDay + (d.msOfDay : Int))

/-- The function `dateKey(d)`. -/
def dateKey (d : JSDate) : String :=
  let yyyy := d.getFullYear
  let mm := padStart (numberToString (d.getMonth + 1)) 2 "0"
  let dd := padStart (numberToString d.getDate) 2 "0"
  numberToString yyyy ++ "-" ++ mm ++ "-" ++ dd

/-- The loop body of `getLastNDates`, for the indices `i, i+1, ..., i+k-1`. -/
def getLastNDatesLoop (zone : TimeZone) (base : JSDate) : Nat → Nat → List JSDate
  | _, 0 => []
  | i, k + 1 =>
    let d := base
    let d := d.setDate zone (base.getDate - (i : Int))
    d :: getLastNDatesLoop zone base (i + 1) k

/-- The function `getLastNDates(n)`, with the time zone and the value of `new Date()` as
parameters. -/
def getLastNDates (zone : TimeZone) (now : JSDate) (n : Nat) : List JSDate :=
  let base := now.setHours zone 12 0 0 0
  getLastNDatesLoop zone base 0 n

/-! ## Items -/

/-- A task of a day, `{ id, title, done, priority }`. The `priority` is kept as a raw
value because the code normalises it wherever it reads one. -/
structure Item where
  id : String
  title : String
  done : Bool
  priority : JSVal
  deriving DecidableEq, Repr, Inhabited

/-- An entry of the template, `{ id, title, priority }`. -/
structure TemplateItem where
  id : String
  title : String
  priority : JSVal
  deriving DecidableEq, Repr, Inhabited

/-- The `items` column of a row of `daily_tasks`: an array of tasks, or any value for
which `Array.isArray` is false. -/
inductive ItemsVal where
  | arr (items : List Item)
  | notArray
  deriving DecidableEq, Repr, Inhabited

/-- A row `{ day, items }` returned by the range read of `daily_tasks`. -/
structure DayRow where
  day : String
  items : ItemsVal
  deriving DecidableEq, Repr, Inhabited

/-- A `Map` from day keys to `items` values; `map.get(k)` is application and `none`
stands for `undefined`. -/
abbrev DayMap := String → Option ItemsVal

/-- The expression `new Map(data.map((r) => [r.day, r.items]))`: a later row replaces an
earlier one with the same key. -/
def mapOf (data : List DayRow) : DayMap :=
  data.foldl (fun m r => fun k => if k = r.day then some r.items else m k) (fun _ => none)

/-! ## Binary64 arithmetic of the percent expression -/

/-- A non-negative finite binary64 value, held exactly as `num / 2 ^ exp`. -/
structure Dbl where
  num : Nat
  exp : Nat
  deriving DecidableEq, Repr, Inhabited

/-- The integer nearest to `n / d`, a tie going to the even one. -/
def roundNearestEven (n d : Nat) : Nat :=
  let q := n / d
  let r := n % d
  if 2 * r < d then q
  else if d < 2 * r then q + 1
  else if q % 2 = 0 then q else q + 1

/-- The loop of `ilog2`: the number of halvings that bring `n` below 2, at most `fuel`. -/
def ilog2Loop : Nat → Nat → Nat
  | 0, _ => 0
  | fuel + 1, n => if n < 2 then 0 else ilog2Loop fuel (n / 2) + 1

/-- The position of the leading bit of `n`: `floor (log2 n)` for `n > 0`. -/
def ilog2 (n : Nat) : Nat := ilog2Loop n n

/-- The binary64 value nearest to the exact quotient `p / q` (round to nearest, ties to
even, 53 significant bits), for a quotient in the normal range of binary64: the
quotient is scaled into `[2^52, 2^53)`, rounded to an integer and scaled back. -/
def toDouble (p q : Nat) : Dbl :=
  if p = 0 then ⟨0, 0⟩
  else
    let lp := ilog2 p
    let lq := ilog2 q
    let t := if q * 2 ^ lp * 2 ^ 53 ≤ p * 2 ^ (53 + lq) then lp + 1 else lp
    let m := roundNearestEven (p * 2 ^ (53 + lq)) (q * 2 ^ t)
    ⟨m * 2 ^ t, 53 + lq⟩

/-- The quotient `a / b` of two integral Numbers below `2^53`, as binary64 computes it. -/
def jsDiv (a b : Nat) : Dbl := toDouble a b

/-- The product `x * c` of a binary64 value and an integral Number, as binary64
computes it. -/
def jsMul (x : Dbl) (c : Nat) : Dbl := toDouble (x.num * c) (2 ^ x.exp)

/-- The function `Math.round(x)`: the integer nearest to `x`, a half going up; this is
`floor(x + 1/2)` of the exact value. -/
def mathRound (x : Dbl) : Nat := (2 * x.num + 2 ^ x.exp) / 2 ^ (x.exp + 1)

/-! ## Recap and streak -/

/-- A row of the recap, `{ date, total, done, percent, fullDone }`. -/
structure RecapRow where
  date : JSDate
  total : Nat
  done : Nat
  percent : Nat
  fullDone : Bool
  deriving DecidableEq, Repr, Inhabited

/-- The expression `Array.isArray(arr) ? arr.length : 0`. -/
def totalOf (arr : Option ItemsVal) : Nat :=
  match arr with
  | some (ItemsVal.arr l) => l.length
  | _ => 0

/-- The expression `Array.isArray(arr) ? arr.filter((t) => t?.done).length : 0`. -/
def doneOf (arr : Option ItemsVal) : Nat :=
  match arr with
  | some (ItemsVal.arr l) => (l.filter (fun t => t.done)).length
  | _ => 0

/-- The expression `total ? Math.round((done / total) * 100) : 0`. -/
def percentOf (done total : Nat) : Nat :=
  if total ≠ 0 then mathRound (jsMul (jsDiv done total) 100) else 0

/-- The expression `total > 0 && done === total`. -/
def fullDoneOf (done total : Nat) : Bool :=
  decide (total > 0) && decide (done = total)

/-- The callback of `getLastNDates(7).map(...)` in the recap effect: the row of the
day `d`. -/
def recapRow (map : DayMap) (d : JSDate) : RecapRow :=
  let k := dateKey d
  let arr := map k
  let total := totalOf arr
  let done := doneOf arr
  let percent := percentOf done total
  let fullDone := fullDoneOf done total
  { date := d, total := total, done := done, percent := percent, fullDone := fullDone }

/-- The outcome of a range read of `daily_tasks`: an error, or `data`, which may be
`null`. -/
inductive QueryResult where
  | error
  | ok (data : Option (List DayRow))
  deriving Repr, Inhabited

/-- The recap effect for `tab === "recap"`: the argument of `setRecap`. `now` is the
value of `new Date()` when the rows are computed. -/
def recapEffect (zone : TimeZone) (now : JSDate) (res : QueryResult) : List RecapRow :=
  match res with
  | QueryResult.error => []
  | QueryResult.ok data =>
    let map := mapOf (data.getD [])
    (getLastNDates zone now 7).map (recapRow map)

/-- The `for` loop of the streak effect from the position of `last30` that remains:
`s` is incremented on a fully done day and the loop is left on any other day. -/
def streakLoop (map : DayMap) : List JSDate → Nat → Nat
  | [], s => s
  | d :: rest, s =>
    let k := dateKey d
    let arr := map k
    let total := totalOf arr
    let done := doneOf arr
    let fullDone := fullDoneOf done total
    if fullDone then streakLoop map rest (s + 1) else s

/-- The streak that the effect computes from the map: `s` after the loop over
`getLastNDates(30)`. -/
def streakScan (zone : TimeZone) (now : JSDate) (map : DayMap) : Nat :=
  streakLoop map (getLastNDates zone now 30) 0

/-- The streak effect: the value of the `streak` state after it, `prev` being the value
before. `alive` is false when the effect was cleaned up before the read returned. -/
def streakEffect (zone : TimeZone) (now : JSDate) (res : QueryResult) (alive : Bool)
    (prev : Nat) : Nat :=
  match res with
  | QueryResult.error => if alive then 0 else prev
  | QueryResult.ok data =>
    let map := mapOf (data.getD [])
    let s := streakScan zone now map
    if alive then s else prev

/-! ## Fresh identifiers and the template -/

/-- The entropy behind `crypto.randomUUID()`: the stream of identifiers that the calls
return, and the number of calls made so far. -/
structure Rng where
  stream : Nat → String
  next : Nat

/-- The call `crypto.randomUUID()`: the next identifier of the stream. -/
def randomUUID (r : Rng) : String × Rng :=
  (r.stream r.next, { r with next := r.next + 1 })

/-- The function `buildDailyFromTemplate(template)`: `template.map` calls back in order
and each call draws one identifier. -/
def buildDailyFromTemplate : List TemplateItem → Rng → List Item × Rng
  | [], r => ([], r)
  | t :: rest, r =>
    let (id, r1) := randomUUID r
    let item : Item :=
      { id := id, title := t.title, done := false, priority := normalizePriority t.priority }
    let (items, r2) := buildDailyFromTemplate rest r1
    (item :: items, r2)

/-! ## The table `daily_tasks` -/

/-- The table `daily_tasks`, unique on `(user_id, day)` as the upsert's `onConflict`
says: the `items` column of the row of a user and a day, if there is one. -/
abbrev DailyTable := String → String → Option ItemsVal

/-- The full-replace write `upsert({ user_id, day, items }, { onConflict: "user_id,day" })`
when it succeeds. -/
def DailyTable.upsert (db : DailyTable) (userId day : String) (items : List Item) :
    DailyTable :=
  fun u d => if u = userId ∧ d = day then some (ItemsVal.arr items) else db u d

/-- The function `loadDailyFromDB(userId, day)`. `ok` is false when the read returns an
error, which the function throws. -/
def loadDailyFromDB (db : DailyTable) (ok : Bool) (userId day : String) :
    Except Unit (Option (List Item)) :=
  if ok then
    match db userId day with
    | some (ItemsVal.arr items) =>
      Except.ok (some (items.map (fun t => { t with priority := normalizePriority t.priority })))
    | _ => Except.ok none
  else Except.error ()

/-- The function `saveDailyToDB(userId, day, nextTasks)`: the table after the write.
`ok` is false when the write returns an error, which the function throws. -/
def saveDailyToDB (db : DailyTable) (ok : Bool) (userId day : String)
    (nextTasks : List Item) : Except Unit DailyTable :=
  if ok then Except.ok (db.upsert userId day nextTasks) else Except.error ()

/-- A call of `saveDailyToDB` as issued: its three arguments. -/
structure DailySave where
  userId : String
  day : String
  items : List Item
  deriving DecidableEq, Repr

/-- What a run of an effect did: the arguments of its `setTasks` calls and the
`saveDailyToDB` calls it issued, both in order, and the table and the entropy after it. -/
structure EffectOutcome where
  setTasks : List (List Item)
  saves : List DailySave
  db : DailyTable
  rng : Rng

/-- The value of the `tasks` state after an effect, `prev` being the value before. -/
def EffectOutcome.tasksAfter (o : EffectOutcome) (prev : List Item) : List Item :=
  o.setTasks.getLast?.getD prev

/-- The load-today effect (LOAD TODAY TASKS). `loadOk` and `saveOk` tell whether the
read and the write succeed, `alive` whether the effect is still current when the read
returns. -/
def loadTodayEffect (userId dayISO : String) (template : List TemplateItem)
    (loadOk alive saveOk : Bool) (db : DailyTable) (rng : Rng) : EffectOutcome :=
  match loadDailyFromDB db loadOk userId dayISO with
  | Except.error _ =>
    let (fallback, r1) := buildDailyFromTemplate template rng
    { setTasks := [fallback], saves := [], db := db, rng := r1 }
  | Except.ok fromDB =>
    if !alive then { setTasks := [], saves := [], db := db, rng := rng }
    else
      match fromDB with
      | some (t :: rest) => { setTasks := [t :: rest], saves := [], db := db, rng := rng }
      | _ =>
        let (seed, r1) := buildDailyFromTemplate template rng
        match saveDailyToDB db saveOk userId dayISO seed with
        | Except.ok db1 =>
          { setTasks := [seed], saves := [⟨userId, dayISO, seed⟩], db := db1, rng := r1 }
        | Except.error _ =>
          let (fallback, r2) := buildDailyFromTemplate template r1
          { setTasks := [seed, fallback], saves := [⟨userId, dayISO, seed⟩], db := db,
            rng := r2 }

/-! ## The dashboard state, the modal and the reset -/

/-- The closure stored in `modal.onConfirm`, with the `template` it captured. -/
inductive ConfirmAction where
  | resetToday (template : List TemplateItem)
  | resetTemplate
  deriving Repr

/-- The `modal` state, `{ open, title, desc, onConfirm }`. -/
structure ModalState where
  isOpen : Bool
  title : String
  desc : String
  onConfirm : Option ConfirmAction
  deriving Repr

/-- The part of the state of `Dashboard` that the actions read and write. -/
structure Dashboard where
  template : List TemplateItem
  templateInput : String
  templatePriority : JSVal
  tasks : List Item
  newTitle : String
  newPriority : JSVal
  modal : ModalState
  editingTodayId : Option String
  editingTodayValue : String
  editingTodayPriority : JSVal
  editingTemplateId : Option String
  editingTemplateValue : String
  editingTemplatePriority : JSVal
  rng : Rng

/-- The function `cancelEditToday()`. -/
def cancelEditToday (s : Dashboard) : Dashboard :=
  { s with editingTodayId := none, editingTodayValue := "",
           editingTodayPriority := JSVal.str "med" }

/-- The function `cancelEditTemplate()`. -/
def cancelEditTemplate (s : Dashboard) : Dashboard :=
  { s with editingTemplateId := none, editingTemplateValue := "",
           editingTemplatePriority := JSVal.str "med" }

/-- The function `resetTodayFromTemplate()`: it only opens the modal. -/
def resetTodayFromTemplate (s : Dashboard) : Dashboard :=
  { s with modal :=
      { isOpen := true, title := "Reset tugas hari ini?",
        desc := "Tugas hari ini akan diisi ulang dari Template. Progress hari ini akan hilang.",
        onConfirm := some (ConfirmAction.resetToday s.template) } }

/-- The expression `DEFAULT_TEMPLATE.map((t) => ({ ...t, id: crypto.randomUUID() }))`,
for the titles and priorities of the constant `DEFAULT_TEMPLATE`. -/
def freshDefaultTemplate (r : Rng) : List TemplateItem × Rng :=
  let (a, r1) := randomUUID r
  let (b, r2) := randomUUID r1
  let (c, r3) := randomUUID r2
  ([{ id := a, title := "Cek email masuk", priority := JSVal.str "med" },
    { id := b, title := "Follow up yang pending", priority := JSVal.str "high" },
    { id := c, title := "Rapikan dokumen kantor", priority := JSVal.str "low" }], r3)

/-- The function `resetTemplateDefault()`: it only opens the modal. -/
def resetTemplateDefault (s : Dashboard) : Dashboard :=
  { s with modal :=
      { isOpen := true, title := "Reset template ke default?",
        desc := "Template buatan kamu akan hilang dan diganti default.",
        onConfirm := some ConfirmAction.resetTemplate } }

/-- The call `modal.onConfirm?.()`: the body of the stored closure. -/
def runOnConfirm (s : Dashboard) : Dashboard :=
  match s.modal.onConfirm with
  | none => s
  | some (ConfirmAction.resetToday template) =>
    let s1 := cancelEditToday s
    let (fresh, r1) := buildDailyFromTemplate template s1.rng
    { s1 with tasks := fresh, rng := r1 }
  | some ConfirmAction.resetTemplate =>
    let s1 := cancelEditTemplate s
    let (fresh, r1) := freshDefaultTemplate s1.rng
    { s1 with template := fresh, rng := r1 }

/-- The `onClose` handler passed to `Modal`. -/
def modalClose (s : Dashboard) : Dashboard :=
  { s with modal := { isOpen := false, title := "", desc := "", onConfirm := none } }

/-- The click handler of the confirm button of `Modal`, which is rendered only while
the modal is open: `onConfirm?.()` and then `onClose?.()`. -/
def modalConfirm (s : Dashboard) : Dashboard :=
  if s.modal.isOpen then modalClose (runOnConfirm s) else s

/-! ## Trimming and the actions of the dashboard -/

/-- The characters that `String.prototype.trim` removes: the white space and the line
terminators of ECMAScript. -/
def isTrimChar (c : Char) : Bool :=
  let n := c.toNat
  n = 0x09 || n = 0x0A || n = 0x0B || n = 0x0C || n = 0x0D || n = 0x20 || n = 0xA0 ||
  n = 0x1680 || (0x2000 ≤ n && n ≤ 0x200A) || n = 0x2028 || n = 0x2029 || n = 0x202F ||
  n = 0x205F || n = 0x3000 || n = 0xFEFF

/-- The method `String.prototype.trim()`. -/
def jsTrim (s : String) : String :=
  String.mk ((s.data.dropWhile isTrimChar).reverse.dropWhile isTrimChar).reverse

/-- The function `toggleDone(id)`. -/
def toggleDone (id : String) (s : Dashboard) : Dashboard :=
  { s with tasks := s.tasks.map (fun t => if t.id = id then { t with done := !t.done } else t) }

/-- The function `addTaskToday(e)`. -/
def addTaskToday (s : Dashboard) : Dashboard :=
  let title := jsTrim s.newTitle
  if title = "" then s
  else
    let (id, r1) := randomUUID s.rng
    { s with
      tasks := { id := id, title := title, done := false,
                 priority := normalizePriority s.newPriority } :: s.tasks,
      newTitle := "", newPriority := JSVal.str "med", rng := r1 }

/-- The function `removeTaskToday(id)`. -/
def removeTaskToday (id : String) (s : Dashboard) : Dashboard :=
  let s1 := if s.editingTodayId = some id then cancelEditToday s else s
  { s1 with tasks := s1.tasks.filter (fun t => t.id ≠ id) }

/-- The function `markAllDone()`. -/
def markAllDone (s : Dashboard) : Dashboard :=
  { s with tasks := s.tasks.map (fun t => { t with done := true }) }

/-- The function `unmarkAll()`. -/
def unmarkAll (s : Dashboard) : Dashboard :=
  { s with tasks := s.tasks.map (fun t => { t with done := false }) }

/-- The function `startEditToday(id, currentTitle, currentPriority)`. -/
def startEditToday (id currentTitle : String) (currentPriority : JSVal) (s : Dashboard) :
    Dashboard :=
  { s with editingTodayId := some id, editingTodayValue := currentTitle,
           editingTodayPriority := normalizePriority currentPriority }

/-- The function `saveEditToday(id)`. -/
def saveEditToday (id : String) (s : Dashboard) : Dashboard :=
  let v := jsTrim s.editingTodayValue
  if v = "" then s
  else
    let p := normalizePriority s.editingTodayPriority
    let next := s.tasks.map
      (fun t => if t.id = id then { t with title := v, priority := p } else t)
    cancelEditToday { s with tasks := next }

/-- The function `addTemplate(e)`. -/
def addTemplate (s : Dashboard) : Dashboard :=
  let title := jsTrim s.templateInput
  if title = "" then s
  else
    let (id, r1) := randomUUID s.rng
    { s with
      template := { id := id, title := title,
                    priority := normalizePriority s.templatePriority } :: s.template,
      templateInput := "", templatePriority := JSVal.str "med", rng := r1 }

/-- The function `removeTemplate(id)`. -/
def removeTemplate (id : String) (s : Dashboard) : Dashboard :=
  let s1 := if s.editingTemplateId = some id then cancelEditTemplate s else s
  { s1 with template := s1.template.filter (fun t => t.id ≠ id) }

/-- The function `startEditTemplate(id, currentTitle, currentPriority)`. -/
def startEditTemplate (id currentTitle : String) (currentPriority : JSVal) (s : Dashboard) :
    Dashboard :=
  { s with editingTemplateId := some id, editingTemplateValue := currentTitle,
           editingTemplatePriority := normalizePriority currentPriority }

/-- The function `saveEditTemplate(id)`. -/
def saveEditTemplate (id : String) (s : Dashboard) : Dashboard :=
  let v := jsTrim s.editingTemplateValue
  if v = "" then s
  else
    let p := normalizePriority s.editingTemplatePriority
    let next := s.template.map
      (fun t => if t.id = id then { t with title := v, priority := p } else t)
    cancelEditTemplate { s with template := next }

/-- The save-today effect (SAVE TODAY TASKS), which runs when `tasks` has changed: the
`saveDailyToDB` calls it issues and the table after it. An error of the write is caught
and logged. -/
def saveTodayEffect (userId dayISO : String) (tasks : List Item) (saveOk : Bool)
    (db : DailyTable) : List DailySave × DailyTable :=
  if tasks.length = 0 then ([], db)
  else
    match saveDailyToDB db saveOk userId dayISO tasks with
    | Except.ok db1 => ([⟨userId, dayISO, tasks⟩], db1)
    | Except.error _ => ([⟨userId, dayISO, tasks⟩], db)

/-! ## Progress of today -/

/-- The constant `doneCount = tasks.filter((t) => t.done).length`. -/
def doneCount (tasks : List Item) : Nat := (tasks.filter (fun t => t.done)).length

/-- The constant
`progress = tasks.length ? Math.round((doneCount / tasks.length) * 100) : 0`. -/
def progress (tasks : List Item) : Nat :=
  if tasks.length ≠ 0 then mathRound (jsMul (jsDiv (doneCount tasks) tasks.length) 100) else 0

/-- The constant `recapEmpty = recap.every((r) => r.total === 0)`. -/
def recapEmpty (recap : List RecapRow) : Bool := recap.all (fun r => r.total = 0)

/-! ## The export -/

/-- The conversion `String(v ?? "")`: the empty string for `null` and `undefined`; an
object is taken with the default string form of `Object.prototype.toString`. -/
def stringOrEmpty (v : JSVal) : String :=
  match v with
  | JSVal.undefined => ""
  | JSVal.null => ""
  | JSVal.bool b => if b then "true" else "false"
  | JSVal.num n => numberToString n
  | JSVal.str s => s
  | JSVal.obj _ => "[object Object]"

/-- The test `/[",\n]/.test(s)`. -/
def needsQuoting (s : String) : Bool :=
  s.data.any (fun c => c = '"' || c = ',' || c = '\n')

/-- The replacement `s.replace(/"/g, '""')`. -/
def doubleQuotes (s : String) : String :=
  String.mk (s.data.flatMap (fun c => if c = '"' then ['"', '"'] else [c]))

/-- The local function `escape` of `toCsv`. -/
def escape (v : JSVal) : String :=
  let s := stringOrEmpty v
  if needsQuoting s then "\"" ++ doubleQuotes s ++ "\"" else s

/-- The method `Array.prototype.join(separator)` on an array of strings. -/
def jsJoin (xs : List String) (separator : String) : String :=
  separator.intercalate xs

/-- The function `toCsv(rows)`. -/
def toCsv (rows : List RecapRow) : String :=
  let header := ["date", "done", "total", "percent", "fullDone"]
  let lines := jsJoin header "," :: rows.map (fun r =>
    jsJoin
      [escape (JSVal.str (dateKey r.date)),
       escape (JSVal.num r.done),
       escape (JSVal.num r.total),
       escape (JSVal.num r.percent),
       escape (JSVal.str (if r.fullDone then "yes" else "no"))] ",")
  jsJoin lines "\n"

/-! ## The template table and the initial state -/

/-- The constant `DEFAULT_TEMPLATE`, whose three identifiers are drawn when the module is
loaded. -/
def DEFAULT_TEMPLATE (r : Rng) : List TemplateItem × Rng :=
  let (a, r1) := randomUUID r
  let (b, r2) := randomUUID r1
  let (c, r3) := randomUUID r2
  ([{ id := a, title := "Cek email masuk", priority := JSVal.str "med" },
    { id := b, title := "Follow up yang pending", priority := JSVal.str "high" },
    { id := c, title := "Rapikan dokumen kantor", priority := JSVal.str "low" }], r3)

/-- The `items` column of a row of `user_templates`: an array of template entries, or any
value for which `Array.isArray` is false. -/
inductive TemplateItemsVal where
  | arr (items : List TemplateItem)
  | notArray
  deriving DecidableEq, Repr, Inhabited

/-- The table `user_templates`, unique on `user_id`: the `items` column of the row of a
user, if there is one. -/
abbrev TemplateTable := String → Option TemplateItemsVal

/-- The function `loadTemplateFromDB(userId)`. `ok` is false when the read returns an
error, which the function throws. -/
def loadTemplateFromDB (db : TemplateTable) (ok : Bool) (userId : String) :
    Except Unit (Option (List TemplateItem)) :=
  if ok then
    match db userId with
    | some (TemplateItemsVal.arr items) =>
      Except.ok (some (items.map (fun t => { t with priority := normalizePriority t.priority })))
    | _ => Except.ok none
  else Except.error ()

/-- The function `saveTemplateToDB(userId, nextTemplate)`: the table after the write. `ok`
is false when the write returns an error, which the function throws. -/
def saveTemplateToDB (db : TemplateTable) (ok : Bool) (userId : String)
    (nextTemplate : List TemplateItem) : Except Unit TemplateTable :=
  if ok then
    Except.ok (fun u => if u = userId then some (TemplateItemsVal.arr nextTemplate) else db u)
  else Except.error ()

/-- What a run of the load-template effect did: the arguments of its `setTemplate` calls
in order, and the table and the entropy after it. -/
structure TemplateOutcome where
  setTemplate : List (List TemplateItem)
  db : TemplateTable
  rng : Rng

/-- The load-template effect (LOAD TEMPLATE). `loadOk` and `saveOk` tell whether the read
and the write succeed, `alive` whether the effect is still current when the read returns. -/
def loadTemplateEffect (userId : String) (loadOk alive saveOk : Bool) (db : TemplateTable)
    (rng : Rng) : TemplateOutcome :=
  match loadTemplateFromDB db loadOk userId with
  | Except.error _ =>
    let (fallback, r1) := freshDefaultTemplate rng
    { setTemplate := [fallback], db := db, rng := r1 }
  | Except.ok t =>
    if !alive then { setTemplate := [], db := db, rng := rng }
    else
      match t with
      | some (x :: rest) => { setTemplate := [x :: rest], db := db, rng := rng }
      | _ =>
        let (seed, r1) := freshDefaultTemplate rng
        match saveTemplateToDB db saveOk userId seed with
        | Except.ok db1 => { setTemplate := [seed], db := db1, rng := r1 }
        | Except.error _ =>
          let (fallback, r2) := freshDefaultTemplate r1
          { setTemplate := [seed, fallback], db := db, rng := r2 }

/-- The state of `Dashboard` at its first render: `template` is `DEFAULT_TEMPLATE`, the
task list is empty, the inputs are empty and the modal is closed. -/
def initialDashboard (moduleRng : Rng) : Dashboard :=
  { template := (DEFAULT_TEMPLATE moduleRng).1, templateInput := "",
    templatePriority := JSVal.str "med", tasks := [], newTitle := "",
    newPriority := JSVal.str "med",
    modal := { isOpen := false, title := "", desc := "", onConfirm := none },
    editingTodayId := none, editingTodayValue := "", editingTodayPriority := JSVal.str "med",
    editingTemplateId := none, editingTemplateValue := "",
    editingTemplatePriority := JSVal.str "med", rng := (DEFAULT_TEMPLATE moduleRng).2 }

/-! ## Notions used to state the properties -/

/-- The ten characters of the key of year `y`, month `m` (1 to 12) and day `d`. -/
def keyChars (y m d : Nat) : List Char :=
  [Nat.digitChar (y / 1000), Nat.digitChar (y / 100 % 10), Nat.digitChar (y / 10 % 10),
   Nat.digitChar (y % 10), '-', Nat.digitChar (m / 10), Nat.digitChar (m % 10), '-',
   Nat.digitChar (d / 10), Nat.digitChar (d % 10)]

/-- The calendar day of `a` is strictly before the calendar day of `b`: the local
(year, month, day of month) of `a` precedes that of `b`. -/
def calendarBefore (a b : JSDate) : Prop :=
  a.getFullYear < b.getFullYear ∨
  (a.getFullYear = b.getFullYear ∧ a.getMonth < b.getMonth) ∨
  (a.getFullYear = b.getFullYear ∧ a.getMonth = b.getMonth ∧ a.getDate < b.getDate)

instance (a b : JSDate) : Decidable (calendarBefore a b) := by
  unfold calendarBefore; infer_instance

/-- The key of the calendar day `i` days before the day of `now`. -/
def keyDaysAgo (now : JSDate) (i : Nat) : String :=
  dateKey { now with day := now.day - (i : Int) }

/-- The day stored under `key` is fully done: a list is stored, it is not empty and
every item of it is done. A day that is absent, empty or has an undone item is not. -/
def FullyDone (map : DayMap) (key : String) : Prop :=
  ∃ l : List Item, map key = some (ItemsVal.arr l) ∧ l ≠ [] ∧ ∀ t ∈ l, t.done = true

/-- The integer nearest to `100 * done / total`, a half rounding up, computed exactly;
0 when `total` is 0. -/
def exactPercent (done total : Nat) : Nat :=
  if total = 0 then 0 else (2 * (100 * done) + total) / (2 * total)

/-- A stored list of `n` tasks of which the first `k` are done. -/
def tasksDone (k n : Nat) : List Item :=
  (List.range n).map (fun i => ⟨toString i, "task", decide (i < k), JSVal.str "med"⟩)

/-- The item that `loadDailyFromDB` returns for a stored item: every field kept, the
priority normalised. -/
def normalizeItem (t : Item) : Item :=
  { id := t.id, title := t.title, done := t.done, priority := normalizePriority t.priority }

/-- An entropy stream for examples: the `n`-th identifier is the decimal numeral of `n`. -/
def countingRng : Rng := { stream := fun n => toString n, next := 0 }

/-- A table `daily_tasks` without rows. -/
def emptyTable : DailyTable := fun _ _ => none

/-- A mutating action on today's task list. -/
inductive TodayAction where
  | toggle (id : String)
  | add
  | remove (id : String)
  | saveEdit (id : String)
  | markAll
  | unmarkAll
  | confirmReset
  deriving Repr

/-- The state after a mutating action on today's task list; the confirmed reset is the
reset request followed by the confirm button of the modal. -/
def applyTodayAction (a : TodayAction) (s : Dashboard) : Dashboard :=
  match a with
  | TodayAction.toggle id => toggleDone id s
  | TodayAction.add => addTaskToday s
  | TodayAction.remove id => removeTaskToday id s
  | TodayAction.saveEdit id => saveEditToday id s
  | TodayAction.markAll => markAllDone s
  | TodayAction.unmarkAll => unmarkAll s
  | TodayAction.confirmReset => modalConfirm (resetTodayFromTemplate s)

/-- The zone does not skip the local noon of the day: a date set to noon of that local
day shows noon of that day. -/
def KeepsNoon (zone : TimeZone) (day : Int) : Prop :=
  JSDate.ofLocal zone (day * msPerDay + 43200000) = { day := day, msOfDay := 43200000 }

instance (zone : TimeZone) (day : Int) : Decidable (KeepsNoon zone day) := by
  unfold KeepsNoon; infer_instance

/-- A zone at the fixed offset 0 from UTC, without transitions. -/
def utcZone : TimeZone := { localTZA := fun _ _ => 0 }

/-- A zone with a daylight-saving transition, that of Central Europe around 2024-03-31:
the offset is +1 h until 2024-03-31T01:00:00Z and +2 h from then on, so that the local
times from 02:00 to 03:00 of that day do not occur. -/
def dstZone : TimeZone :=
  { localTZA := fun t isUTC =>
      if isUTC then (if t < 1711846800000 then 3600000 else 7200000)
      else (if t < 1711854000000 then 3600000 else 7200000) }

/-- The zone of Apia around the end of 2011: the offset is -10 h until
2011-12-30T10:00:00Z, the end of the local day 2011-12-29, and +14 h from then on, so that
local time goes from 2011-12-29 24:00 to 2011-12-31 00:00 and the local day 2011-12-30
does not occur. -/
def apiaZone : TimeZone :=
  { localTZA := fun t isUTC =>
      if isUTC then (if t < 1325239200000 then -36000000 else 50400000)
      else (if t < 1325289600000 then -36000000 else 50400000) }

/-- The rows stored for a user in Apia at the start of 2012: 2012-01-01, 2011-12-31 and
2011-12-29 are fully done, and nothing is stored for 2011-12-30. -/
def apiaStore : List DayRow :=
  [⟨"2012-01-01", ItemsVal.arr [⟨"a", "t", true, JSVal.str "med"⟩]⟩,
   ⟨"2011-12-31", ItemsVal.arr [⟨"b", "t", true, JSVal.str "med"⟩]⟩,
   ⟨"2011-12-29", ItemsVal.arr [⟨"c", "t", true, JSVal.str "med"⟩]⟩]

/-- Noon of the calendar day `i` days before the day of `now`. -/
def noonDaysAgo (now : JSDate) (i : Nat) : JSDate :=
  { day := now.day - (i : Int), msOfDay := 43200000 }

/-- The line of a recap row in the export: the key of its date, done, total, percent and
yes or no, separated by commas. -/
def csvLine (r : RecapRow) : String :=
  dateKey r.date ++ "," ++ numberToString r.done ++ "," ++ numberToString r.total ++ "," ++
    numberToString r.percent ++ "," ++ (if r.fullDone then "yes" else "no")

/-- The number of leading rows of a recap that are fully done. -/
def leadingFullDone (recap : List RecapRow) : Nat :=
  (recap.takeWhile (fun r => r.fullDone)).length

/-- A dashboard state for examples, with the given task list and template. -/
def exampleDashboard (tasks : List Item) (template : List TemplateItem) : Dashboard :=
  { template := template, templateInput := "", templatePriority := JSVal.str "med",
    tasks := tasks, newTitle := "", newPriority := JSVal.str "med",
    modal := { isOpen := false, title := "", desc := "", onConfirm := none },
    editingTodayId := none, editingTodayValue := "", editingTodayPriority := JSVal.str "med",
    editingTemplateId := none, editingTemplateValue := "",
    editingTemplatePriority := JSVal.str "med", rng := countingRng }

/-- The strings of a list in order, separated by single newlines, with no newline after the
last one. -/
def joinLines : List String → String
  | [] => ""
  | [a] => a
  | a :: b :: rest => a ++ "\n" ++ joinLines (b :: rest)

/-- A priority is valid: it is one of "high", "med", "low". -/
def ValidPriority (p : JSVal) : Prop :=
  p = JSVal.str "high" ∨ p = JSVal.str "med" ∨ p = JSVal.str "low"

/-- Every task of a list has a valid priority. -/
def ValidTasks (tasks : List Item) : Prop := ∀ t ∈ tasks, ValidPriority t.priority

/-- Every entry of a template has a valid priority. -/
def ValidTemplate (template : List TemplateItem) : Prop :=
  ∀ t ∈ template, ValidPriority t.priority

/-- The (year, month, day of month) that `dateKey` reads from a date. -/
def localTriple (d : JSDate) : Int × Int × Int := (d.getFullYear, d.getMonth, d.getDate)

/-- The template and the task list of a state have valid priorities. -/
def ValidState (s : Dashboard) : Prop := ValidTemplate s.template ∧ ValidTasks s.tasks

/-- The decimal digits of a number as the runtime prints them, least significant first:
the digit 0 for the number 0. -/
def reprDigits (n : Nat) : List Nat := if n = 0 then [0] else Nat.digits 10 n

/-! ## Lemmas on the runtime: decimal digits, padding, the calendar -/

/-- The digit loop of the runtime, with enough fuel, prepends the decimal digits of a positive
number, most significant first. -/
theorem toDigitsCore_eq_digits (fuel : Nat) : ∀ (n : Nat) (ds : List Char), n < fuel → 0 < n →
    Nat.toDigitsCore 10 fuel n ds = ((Nat.digits 10 n).reverse.map Nat.digitChar) ++ ds := by
  induction fuel with
  | zero => intro n ds h; omega
  | succ fuel ih =>
    intro n ds hlt hpos
    rw [Nat.digits_def' (by norm_num) hpos]
    simp only [Nat.toDigitsCore]
    by_cases h0 : n / 10 = 0
    · simp [h0]
    · have h1 : n / 10 < fuel := by omega
      have h2 : 0 < n / 10 := by omega
      simp only [h0, if_false]
      rw [ih _ _ h1 h2]
      simp

/-- The decimal numeral of a positive number is made of its decimal digits, most significant
first. -/
theorem nat_repr_eq_digits (n : Nat) (h : 0 < n) :
    Nat.repr n = String.mk ((Nat.digits 10 n).reverse.map Nat.digitChar) := by
  simp only [Nat.repr, Nat.toDigits, List.asString]
  rw [toDigitsCore_eq_digits _ _ _ (by omega) h]
  simp

/-- The string of a non-negative integer is its decimal numeral. -/
theorem numberToString_ofNat (n : Nat) : numberToString (n : Int) = Nat.repr n := by
  rfl

/-- The string of a negative integer is a minus sign and the numeral of its absolute value. -/
theorem numberToString_neg (n : Nat) : numberToString (Int.negSucc n) = "-" ++ Nat.repr (n+1) := by
  rfl

/-- The month of a day number is between 1 and 12. -/
theorem civil_month_bounds (z : Int) : 1 ≤ (civilFromDays z).2.1 ∧ (civilFromDays z).2.1 ≤ 12 := by
  simp only [civilFromDays]
  split_ifs <;> omega

/-- The day of the month of a day number is between 1 and 31. -/
theorem civil_day_bounds (z : Int) : 1 ≤ (civilFromDays z).2.2 ∧ (civilFromDays z).2.2 ≤ 31 := by
  simp only [civilFromDays]
  omega

/-- The decimal digits of a positive number below 10. -/
theorem digits_lt10 (n : Nat) (h0 : 0 < n) (h : n < 10) : Nat.digits 10 n = [n] := by
  rw [Nat.digits_def' (by norm_num) h0]
  have : n / 10 = 0 := by omega
  have h2 : n % 10 = n := by omega
  simp [this, h2]

/-- The decimal digits of a number from 10 to 99. -/
theorem digits_lt100 (n : Nat) (h0 : 10 ≤ n) (h : n < 100) : Nat.digits 10 n = [n % 10, n / 10] := by
  rw [Nat.digits_def' (by norm_num) (by omega), digits_lt10 (n / 10) (by omega) (by omega)]

/-- The decimal digits of a number from 1000 to 9999. -/
theorem digits_4 (n : Nat) (h0 : 1000 ≤ n) (h : n < 10000) :
    Nat.digits 10 n = [n % 10, n / 10 % 10, n / 100 % 10, n / 1000] := by
  rw [Nat.digits_def' (by norm_num) (by omega), Nat.digits_def' (by norm_num) (by omega),
    digits_lt100 (n / 10 / 10) (by omega) (by omega)]
  have e1 : n / 10 / 10 = n / 100 := by omega
  have e2 : n / 100 / 10 = n / 1000 := by omega
  simp [e1, e2]

/-- Padding the string of a number from 1 to 31 to two characters gives its two digits. -/
theorem padStart_two (n : Nat) (h0 : 1 ≤ n) (h : n ≤ 31) :
    padStart (numberToString (n : Int)) 2 "0" = String.mk [Nat.digitChar (n / 10), Nat.digitChar (n % 10)] := by
  interval_cases n <;> decide

/-- The character of a smaller decimal digit is the smaller character. -/
theorem digitChar_lt (a b : Nat) (ha : a < 10) (hb : b < 10) (h : a < b) :
    Nat.digitChar a < Nat.digitChar b := by
  interval_cases a <;> interval_cases b <;> first | omega | decide

/-- Comparison of two character lists that start with a digit each. -/
theorem cons_lt_of_digit (a b : Nat) (as bs : List Char) (ha : a < 10) (hb : b < 10)
    (h : a < b ∨ (a = b ∧ as < bs)) : Nat.digitChar a :: as < Nat.digitChar b :: bs := by
  rcases h with h | ⟨h, h2⟩
  · exact List.Lex.rel (digitChar_lt a b ha hb h)
  · subst h
    exact List.Lex.cons h2

/-- Comparison of two character lists that start with the same character. -/
theorem cons_lt_same (c : Char) (as bs : List Char) (h : as < bs) : c :: as < c :: bs :=
  List.Lex.cons h

/-- Comparison of two character lists that start with two digits each. -/
theorem digits2_lt (a b : Nat) (as bs : List Char) (ha : a < 100) (hb : b < 100)
    (h : a < b ∨ (a = b ∧ as < bs)) :
    Nat.digitChar (a / 10) :: Nat.digitChar (a % 10) :: as
      < Nat.digitChar (b / 10) :: Nat.digitChar (b % 10) :: bs := by
  apply cons_lt_of_digit _ _ _ _ (by omega) (by omega)
  by_cases h1 : a / 10 < b / 10
  · exact Or.inl h1
  · refine Or.inr ⟨by omega, ?_⟩
    apply cons_lt_of_digit _ _ _ _ (by omega) (by omega)
    rcases h with h | ⟨h, h2⟩
    · exact Or.inl (by omega)
    · exact Or.inr ⟨by omega, h2⟩

/-- The string of a number from 1000 to 9999 is its four digits. -/
theorem numberToString_four (n : Nat) (h0 : 1000 ≤ n) (h : n < 10000) :
    numberToString (n : Int) = String.mk [Nat.digitChar (n / 1000), Nat.digitChar (n / 100 % 10),
      Nat.digitChar (n / 10 % 10), Nat.digitChar (n % 10)] := by
  rw [numberToString_ofNat, nat_repr_eq_digits n (by omega), digits_4 n h0 h]
  rfl

/-- The key of a date with a four-digit year, character by character. -/
theorem dateKey_eq_keyChars (d : JSDate) (h0 : 1000 ≤ d.getFullYear) (h1 : d.getFullYear ≤ 9999) :
    dateKey d = String.mk (keyChars d.getFullYear.toNat (d.getMonth + 1).toNat d.getDate.toNat) := by
  have hm := civil_month_bounds d.day
  have hd := civil_day_bounds d.day
  have ey : d.getFullYear = ((d.getFullYear.toNat : Nat) : Int) := by omega
  have em : d.getMonth + 1 = (((d.getMonth + 1).toNat : Nat) : Int) := by
    simp only [JSDate.getMonth]; omega
  have ed : d.getDate = ((d.getDate.toNat : Nat) : Int) := by
    simp only [JSDate.getDate]; omega
  have bm : 1 ≤ (d.getMonth + 1).toNat ∧ (d.getMonth + 1).toNat ≤ 31 := by
    simp only [JSDate.getMonth]; omega
  have bd : 1 ≤ d.getDate.toNat ∧ d.getDate.toNat ≤ 31 := by
    simp only [JSDate.getDate]; omega
  simp only [dateKey]
  rw [ey, em, ed]
  simp only [Int.toNat_ofNat]
  rw [numberToString_four _ (by omega) (by omega), padStart_two _ bm.1 bm.2,
    padStart_two _ bd.1 bd.2]
  rfl

/-- Comparison of two character lists that start with four digits each. -/
theorem digits4_lt (a b : Nat) (as bs : List Char) (ha : a < 10000) (hb : b < 10000)
    (h : a < b ∨ (a = b ∧ as < bs)) :
    Nat.digitChar (a / 1000) :: Nat.digitChar (a / 100 % 10) :: Nat.digitChar (a / 10 % 10) ::
        Nat.digitChar (a % 10) :: as
      < Nat.digitChar (b / 1000) :: Nat.digitChar (b / 100 % 10) :: Nat.digitChar (b / 10 % 10) ::
        Nat.digitChar (b % 10) :: bs := by
  have hab : a ≤ b := by rcases h with h | ⟨h, _⟩ <;> omega
  apply cons_lt_of_digit _ _ _ _ (by omega) (by omega)
  by_cases h1 : a / 1000 < b / 1000
  · exact Or.inl h1
  refine Or.inr ⟨by omega, ?_⟩
  apply cons_lt_of_digit _ _ _ _ (by omega) (by omega)
  by_cases h2 : a / 100 % 10 < b / 100 % 10
  · exact Or.inl h2
  refine Or.inr ⟨by omega, ?_⟩
  apply cons_lt_of_digit _ _ _ _ (by omega) (by omega)
  by_cases h3 : a / 10 % 10 < b / 10 % 10
  · exact Or.inl h3
  refine Or.inr ⟨by omega, ?_⟩
  apply cons_lt_of_digit _ _ _ _ (by omega) (by omega)
  rcases h with h | ⟨h, h4⟩
  · exact Or.inl (by omega)
  · exact Or.inr ⟨by omega, h4⟩

/-- The keys of an earlier and a later (year, month, day) compare as the triples do. -/
theorem keyChars_lt (y1 m1 d1 y2 m2 d2 : Nat) (hy1 : y1 < 10000) (hy2 : y2 < 10000)
    (hm1 : m1 < 100) (hm2 : m2 < 100) (hd1 : d1 < 100) (hd2 : d2 < 100)
    (h : y1 < y2 ∨ (y1 = y2 ∧ m1 < m2) ∨ (y1 = y2 ∧ m1 = m2 ∧ d1 < d2)) :
    keyChars y1 m1 d1 < keyChars y2 m2 d2 := by
  unfold keyChars
  apply digits4_lt _ _ _ _ hy1 hy2
  by_cases hy : y1 < y2
  · exact Or.inl hy
  refine Or.inr ⟨by omega, ?_⟩
  apply cons_lt_same
  apply digits2_lt _ _ _ _ hm1 hm2
  by_cases hm : m1 < m2
  · exact Or.inl hm
  refine Or.inr ⟨by omega, ?_⟩
  apply cons_lt_same
  apply digits2_lt _ _ _ _ hd1 hd2
  exact Or.inl (by omega)

/-! ## Lemmas on the binary64 arithmetic of the percent -/

/-- The halving loop with enough fuel brackets a positive number between two powers of 2. -/
theorem ilog2Loop_spec : ∀ (fuel n : Nat), 0 < n → n ≤ fuel →
    2 ^ ilog2Loop fuel n ≤ n ∧ n < 2 ^ (ilog2Loop fuel n + 1) := by
  intro fuel
  induction fuel with
  | zero => intro n h1 h2; omega
  | succ fuel ih =>
    intro n h1 h2
    by_cases h : n < 2
    · have : n = 1 := by omega
      subst this
      simp [ilog2Loop]
    · have ih2 := ih (n / 2) (by omega) (by omega)
      simp only [ilog2Loop, h, if_false]
      rw [pow_succ, pow_succ]
      constructor <;> omega

/-- The leading bit position brackets a positive number between two powers of 2. -/
theorem ilog2_spec (n : Nat) (h : 0 < n) : 2 ^ ilog2 n ≤ n ∧ n < 2 ^ (ilog2 n + 1) :=
  ilog2Loop_spec n n h (le_refl n)

/-- A number below `2 ^ k` has its leading bit below position `k`. -/
theorem ilog2_lt_of_lt_pow (n k : Nat) (h : 0 < n) (hk : n < 2 ^ k) : ilog2 n < k := by
  have h1 := (ilog2_spec n h).1
  have h2 : 2 ^ ilog2 n < 2 ^ k := lt_of_le_of_lt h1 hk
  exact (Nat.pow_lt_pow_iff_right (by norm_num)).mp h2

/-- A number that is at least `2 ^ k` has its leading bit at position `k` or above. -/
theorem le_ilog2_of_pow_le (n k : Nat) (h : 0 < n) (hk : 2 ^ k ≤ n) : k ≤ ilog2 n := by
  have h1 := (ilog2_spec n h).2
  have h2 : 2 ^ k < 2 ^ (ilog2 n + 1) := lt_of_le_of_lt hk h1
  have := (Nat.pow_lt_pow_iff_right (by norm_num)).mp h2
  omega

/-- The leading bit of a power of 2. -/
theorem ilog2_pow (k : Nat) : ilog2 (2 ^ k) = k := by
  have hp : 0 < 2 ^ k := Nat.pow_pos (by norm_num)
  have a := ilog2_lt_of_lt_pow (2 ^ k) (k + 1) hp (Nat.pow_lt_pow_right (by norm_num) (by omega))
  have b := le_ilog2_of_pow_le (2 ^ k) k hp (le_refl _)
  omega

/-- Rounding to nearest stays at or below an integer bound of the quotient. -/
theorem roundNearestEven_le (n d k : Nat) (hd : 0 < d) (h : n ≤ k * d) :
    roundNearestEven n d ≤ k := by
  have hq : n / d ≤ k := by
    calc n / d ≤ k * d / d := Nat.div_le_div_right h
      _ = k := Nat.mul_div_cancel k hd
  have hmod := Nat.mod_lt n hd
  have hdiv := Nat.div_add_mod n d
  by_cases hlt : n / d < k
  · unfold roundNearestEven
    simp only
    split_ifs <;> omega
  · have hqk : n / d = k := by omega
    have hr : n % d = 0 := by
      have : d * (n / d) = k * d := by rw [hqk]; ring
      omega
    unfold roundNearestEven
    simp only [hr, hqk]
    split_ifs <;> omega

/-- Rounding to nearest stays at or above an integer bound of the quotient. -/
theorem le_roundNearestEven (n d k : Nat) (hd : 0 < d) (h : k * d ≤ n) :
    k ≤ roundNearestEven n d := by
  have hq : k ≤ n / d := (Nat.le_div_iff_mul_le hd).mpr h
  unfold roundNearestEven
  simp only
  split_ifs <;> omega


/-- The scaled and rounded quotient, scaled back, stays at or below an integer bound of
the quotient. -/
theorem scaled_round_le (p q c e t : Nat) (hq : 0 < q) (ht : t ≤ e) (h : p ≤ c * q) :
    roundNearestEven (p * 2 ^ e) (q * 2 ^ t) * 2 ^ t ≤ c * 2 ^ e := by
  have hD : 0 < q * 2 ^ t := Nat.mul_pos hq (Nat.pow_pos (by norm_num))
  have he : 2 ^ e = 2 ^ (e - t) * 2 ^ t := by
    rw [← pow_add]; congr 1; omega
  have hN : p * 2 ^ e ≤ (c * 2 ^ (e - t)) * (q * 2 ^ t) := by
    calc p * 2 ^ e ≤ (c * q) * 2 ^ e := Nat.mul_le_mul_right _ h
      _ = (c * 2 ^ (e - t)) * (q * 2 ^ t) := by rw [he]; ring
  have hm := roundNearestEven_le _ _ _ hD hN
  calc roundNearestEven (p * 2 ^ e) (q * 2 ^ t) * 2 ^ t
      ≤ (c * 2 ^ (e - t)) * 2 ^ t := Nat.mul_le_mul_right _ hm
    _ = c * 2 ^ e := by rw [he]; ring

/-- The scaled and rounded quotient, scaled back, stays at or above an integer bound of
the quotient. -/
theorem le_scaled_round (p q c e t : Nat) (hq : 0 < q) (ht : t ≤ e) (h : c * q ≤ p) :
    c * 2 ^ e ≤ roundNearestEven (p * 2 ^ e) (q * 2 ^ t) * 2 ^ t := by
  have hD : 0 < q * 2 ^ t := Nat.mul_pos hq (Nat.pow_pos (by norm_num))
  have he : 2 ^ e = 2 ^ (e - t) * 2 ^ t := by
    rw [← pow_add]; congr 1; omega
  have hN : (c * 2 ^ (e - t)) * (q * 2 ^ t) ≤ p * 2 ^ e := by
    calc (c * 2 ^ (e - t)) * (q * 2 ^ t) = (c * q) * 2 ^ e := by rw [he]; ring
      _ ≤ p * 2 ^ e := Nat.mul_le_mul_right _ h
  have hm := le_roundNearestEven _ _ _ hD hN
  calc c * 2 ^ e = (c * 2 ^ (e - t)) * 2 ^ t := by rw [he]; ring
    _ ≤ roundNearestEven (p * 2 ^ e) (q * 2 ^ t) * 2 ^ t := Nat.mul_le_mul_right _ hm

/-- The binary64 quotient of `p` and `q` is at most `c` when the exact quotient is, for a
quotient below `2 ^ 52`. -/
theorem toDouble_le (p q c : Nat) (hq : 0 < q) (hs : ilog2 p ≤ 51 + ilog2 q)
    (h : p ≤ c * q) : (toDouble p q).num ≤ c * 2 ^ (toDouble p q).exp := by
  unfold toDouble
  by_cases hp : p = 0
  · simp [hp]
  · simp only [hp, if_false]
    split_ifs
    · exact scaled_round_le p q c _ _ hq (by omega) h
    · exact scaled_round_le p q c _ _ hq (by omega) h

/-- The binary64 quotient of `p` and `q` is at least `c` when the exact quotient is, for a
quotient below `2 ^ 52`. -/
theorem le_toDouble (p q c : Nat) (hq : 0 < q) (hp : 0 < p) (hs : ilog2 p ≤ 51 + ilog2 q)
    (h : c * q ≤ p) : c * 2 ^ (toDouble p q).exp ≤ (toDouble p q).num := by
  unfold toDouble
  have hp0 : p ≠ 0 := by omega
  simp only [hp0, if_false]
  split_ifs
  · exact le_scaled_round p q c _ _ hq (by omega) h
  · exact le_scaled_round p q c _ _ hq (by omega) h

/-- The exponent field of a binary64 quotient. -/
theorem toDouble_exp (p q : Nat) (hp : 0 < p) : (toDouble p q).exp = 53 + ilog2 q := by
  unfold toDouble
  have hp0 : p ≠ 0 := by omega
  simp only [hp0, if_false]

/-- A number at most `c * q` with `c < 2 ^ 7` has its leading bit at most 7 positions above
the leading bit of `q`. -/
theorem ilog2_le_of_le_mul (p q c : Nat) (hp : 0 < p) (hq : 0 < q) (hc : c < 2 ^ 7)
    (h : p ≤ c * q) : ilog2 p ≤ 7 + ilog2 q := by
  have h2 := (ilog2_spec q hq).2
  have h3 : p < 2 ^ (7 + (ilog2 q + 1)) := by
    rw [pow_add]
    calc p ≤ c * q := h
      _ < 2 ^ 7 * 2 ^ (ilog2 q + 1) := by
        have hc1 : c ≤ 2 ^ 7 := le_of_lt hc
        calc c * q ≤ 2 ^ 7 * q := Nat.mul_le_mul_right _ hc1
          _ < 2 ^ 7 * 2 ^ (ilog2 q + 1) := Nat.mul_lt_mul_of_pos_left h2 (by norm_num)
  have := ilog2_lt_of_lt_pow p _ hp h3
  omega

/-- The percent of a day without a done task is 0. -/
theorem percentOf_zero (total : Nat) : percentOf 0 total = 0 := by
  have h1 : jsDiv 0 total = ⟨0, 0⟩ := by simp [jsDiv, toDouble]
  have h2 : jsMul ⟨0, 0⟩ 100 = ⟨0, 0⟩ := by simp [jsMul, toDouble]
  unfold percentOf
  split_ifs
  · rw [h1, h2]; decide
  · rfl

/-- The percent is at most 100 when at most all tasks are done. -/
theorem percentOf_le_100 (done total : Nat) (h : done ≤ total) : percentOf done total ≤ 100 := by
  unfold percentOf
  split_ifs with ht
  · have htot : 0 < total := by omega
    by_cases hd : done = 0
    · subst hd
      have := percentOf_zero total
      simp only [percentOf, ht, if_true, ne_eq, not_false_eq_true] at this
      omega
    · have hdp : 0 < done := by omega
      have h1 : (jsDiv done total).num ≤ 1 * 2 ^ (jsDiv done total).exp :=
        toDouble_le done total 1 htot
          (by have := ilog2_le_of_le_mul done total 1 hdp htot (by norm_num) (by omega); omega)
          (by omega)
      have hq : 0 < 2 ^ (jsDiv done total).exp := Nat.pow_pos (by norm_num)
      have h2 : (jsMul (jsDiv done total) 100).num ≤ 100 * 2 ^ (jsMul (jsDiv done total) 100).exp := by
        unfold jsMul
        by_cases hz : (jsDiv done total).num * 100 = 0
        · rw [hz]; simp [toDouble]
        · exact toDouble_le _ _ 100 hq
            (by
              have := ilog2_le_of_le_mul ((jsDiv done total).num * 100) _ 100 (by omega) hq
                (by norm_num) (by nlinarith)
              omega)
            (by nlinarith)
      unfold mathRound
      have hpos : 0 < 2 ^ ((jsMul (jsDiv done total) 100).exp + 1) := Nat.pow_pos (by norm_num)
      rw [Nat.div_le_iff_le_mul_add_pred hpos]
      rw [pow_succ]
      omega
  · omega


/-- The binary64 quotient of `p` and `q` is exactly `c` when the exact quotient is, for
`c` below `2 ^ 7`. -/
theorem toDouble_exact (p q c : Nat) (hq : 0 < q) (hp : 0 < p) (hc : c < 2 ^ 7)
    (h : p = c * q) : (toDouble p q).num = c * 2 ^ (toDouble p q).exp := by
  have hs : ilog2 p ≤ 51 + ilog2 q := by
    have := ilog2_le_of_le_mul p q c hp hq hc (le_of_eq h)
    omega
  exact le_antisymm (toDouble_le p q c hq hs (le_of_eq h))
    (le_toDouble p q c hq hp hs (le_of_eq h.symm))

/-- The percent of a day with all of its tasks done is 100. -/
theorem percentOf_self (n : Nat) (h : 0 < n) : percentOf n n = 100 := by
  have h1 : (jsDiv n n).num = 1 * 2 ^ (jsDiv n n).exp :=
    toDouble_exact n n 1 h h (by norm_num) (by omega)
  have hq : 0 < 2 ^ (jsDiv n n).exp := Nat.pow_pos (by norm_num)
  have h2 : (jsMul (jsDiv n n) 100).num = 100 * 2 ^ (jsMul (jsDiv n n) 100).exp := by
    unfold jsMul
    exact toDouble_exact _ _ 100 hq (by omega) (by norm_num) (by omega)
  have hn : n ≠ 0 := by omega
  unfold percentOf mathRound
  simp only [hn, ne_eq, not_false_eq_true, if_true, h2]
  have hpos : 0 < 2 ^ (jsMul (jsDiv n n) 100).exp := Nat.pow_pos (by norm_num)
  rw [pow_succ]
  have e : 2 * (100 * 2 ^ (jsMul (jsDiv n n) 100).exp) + 2 ^ (jsMul (jsDiv n n) 100).exp
      = 2 ^ (jsMul (jsDiv n n) 100).exp + 100 * (2 ^ (jsMul (jsDiv n n) 100).exp * 2) := by ring
  rw [e, Nat.add_mul_div_right _ _ (by omega)]
  rw [Nat.div_eq_of_lt (by omega)]

/-! ## Priorities -/

/-- C8: `normalizePriority` returns its argument unchanged when it is one of "high",
"med", "low", returns "med" for every other value, and so always returns one of the
three priorities. -/
theorem normalizePriority_spec (p : JSVal) :
    ((p = JSVal.str "high" ∨ p = JSVal.str "med" ∨ p = JSVal.str "low") →
        normalizePriority p = p) ∧
    (¬ (p = JSVal.str "high" ∨ p = JSVal.str "med" ∨ p = JSVal.str "low") →
        normalizePriority p = JSVal.str "med") ∧
    (normalizePriority p = JSVal.str "high" ∨ normalizePriority p = JSVal.str "med" ∨
        normalizePriority p = JSVal.str "low") := by
  by_cases h : p = JSVal.str "high" ∨ p = JSVal.str "med" ∨ p = JSVal.str "low"
  · have e : normalizePriority p = p := by
      rcases h with h | h | h <;> subst h <;> decide
    refine ⟨fun _ => e, fun hn => absurd h hn, ?_⟩
    rw [e]; exact h
  · have e : normalizePriority p = JSVal.str "med" := by
      unfold normalizePriority
      rw [if_neg]
      simp only [PRIORITIES, List.contains_eq_any_beq, List.any_cons, List.any_nil, beq_iff_eq,
        Bool.or_false, Bool.or_eq_true, decide_eq_true_eq]
      simp only [Bool.decide_or, Bool.decide_eq_true, Bool.or_eq_true, beq_iff_eq] at *
      tauto
    exact ⟨fun hp => absurd hp h, fun _ => e, Or.inr (Or.inl e)⟩

/-! ## Day keys -/

/-- C9: for a date whose local year is between 1000 and 9999, `dateKey` is the
10-character string made of the four digits of the year, a dash, the month number
`getMonth() + 1` (between 1 and 12) on two digits, a dash and the day of the month on two
digits; a date of the same local calendar day has the same key whatever its time of
day. -/
theorem dateKey_format (d : JSDate) (h0 : 1000 ≤ d.getFullYear) (h1 : d.getFullYear ≤ 9999) :
    1 ≤ d.getMonth + 1 ∧ d.getMonth + 1 ≤ 12 ∧ 1 ≤ d.getDate ∧ d.getDate ≤ 31 ∧
    dateKey d
      = String.mk (keyChars d.getFullYear.toNat (d.getMonth + 1).toNat d.getDate.toNat) ∧
    (dateKey d).length = 10 ∧
    ∀ d2 : JSDate, d2.day = d.day → dateKey d2 = dateKey d := by
  have hm := civil_month_bounds d.day
  have hd := civil_day_bounds d.day
  have hk := dateKey_eq_keyChars d h0 h1
  refine ⟨?_, ?_, hd.1, hd.2, hk, ?_, ?_⟩
  · simp only [JSDate.getMonth]; omega
  · simp only [JSDate.getMonth]; omega
  · rw [hk]; rfl
  · intro d2 h2
    simp only [dateKey, JSDate.getFullYear, JSDate.getMonth, JSDate.getDate, h2]

/-- C9, at noon of 2024-01-01 and at its midnight. -/
theorem dateKey_format_witness :
    1000 ≤ (JSDate.mk 19723 61200000).getFullYear ∧ (JSDate.mk 19723 61200000).getFullYear ≤ 9999 ∧
    dateKey (JSDate.mk 19723 61200000) = "2024-01-01" ∧
    (dateKey (JSDate.mk 19723 61200000)).length = 10 ∧
    dateKey (JSDate.mk 19723 0) = dateKey (JSDate.mk 19723 61200000) :=
  ⟨by decide, by decide,
   (dateKey_format (JSDate.mk 19723 61200000) (by decide) (by decide)).2.2.2.2.1.trans (by decide),
   (dateKey_format (JSDate.mk 19723 61200000) (by decide) (by decide)).2.2.2.2.2.1,
   (dateKey_format (JSDate.mk 19723 61200000) (by decide) (by decide)).2.2.2.2.2.2 _ rfl⟩

/-- C10 fails outside four-digit years: 9999-12-31 is the calendar day before
10000-01-01 and its key "9999-12-31" is not below the key "10000-01-01". -/
theorem dateKey_monotone_counterexample :
    (JSDate.mk 2932896 43200000).day < (JSDate.mk 2932897 43200000).day ∧
    calendarBefore (JSDate.mk 2932896 43200000) (JSDate.mk 2932897 43200000) ∧
    dateKey (JSDate.mk 2932896 43200000) = "9999-12-31" ∧
    dateKey (JSDate.mk 2932897 43200000) = "10000-01-01" ∧
    ¬ (dateKey (JSDate.mk 2932896 43200000) < dateKey (JSDate.mk 2932897 43200000)) :=
  ⟨by decide, by decide, by decide, by decide,
   fun h => absurd (String.lt_iff_toList_lt.mp h) (by decide)⟩

/-- C10, amended: for two dates whose local years are between 1000 and 9999, if the
calendar day of the first is strictly before the calendar day of the second then the key
of the first is below the key of the second in string comparison. -/
theorem dateKey_monotone_four_digit_years (d1 d2 : JSDate)
    (h1 : 1000 ≤ d1.getFullYear ∧ d1.getFullYear ≤ 9999)
    (h2 : 1000 ≤ d2.getFullYear ∧ d2.getFullYear ≤ 9999)
    (h : calendarBefore d1 d2) : dateKey d1 < dateKey d2 := by
  rw [dateKey_eq_keyChars d1 h1.1 h1.2, dateKey_eq_keyChars d2 h2.1 h2.2,
    String.lt_iff_toList_lt]
  have hm1 := civil_month_bounds d1.day
  have hd1 := civil_day_bounds d1.day
  have hm2 := civil_month_bounds d2.day
  have hd2 := civil_day_bounds d2.day
  show keyChars _ _ _ < keyChars _ _ _
  unfold calendarBefore at h
  simp only [JSDate.getMonth, JSDate.getDate] at *
  apply keyChars_lt <;> omega

/-- C10 amended, at 2023-12-31 and 2024-01-01. -/
theorem dateKey_monotone_four_digit_years_witness :
    calendarBefore (JSDate.mk 19722 0) (JSDate.mk 19723 0) ∧
    dateKey (JSDate.mk 19722 0) < dateKey (JSDate.mk 19723 0) :=
  ⟨by decide, dateKey_monotone_four_digit_years _ _ (by decide) (by decide) (by decide)⟩

/-! ## The streak -/

/-- The key of a date reads its calendar day only. -/
theorem dateKey_congr (a b : JSDate) (h : a.day = b.day) : dateKey a = dateKey b := by
  simp only [dateKey, JSDate.getFullYear, JSDate.getMonth, JSDate.getDate, h]

/-- A zone at a fixed offset keeps the noon of every day. -/
theorem keepsNoon_utcZone (day : Int) : KeepsNoon utcZone day := by
  simp only [KeepsNoon, JSDate.ofLocal, utcZone, msPerDay, sub_zero, add_zero, JSDate.mk.injEq]
  constructor <;> omega

/-- A zone with a daylight-saving transition at night keeps the noon of every day. -/
theorem keepsNoon_dstZone (day : Int) : KeepsNoon dstZone day := by
  simp only [KeepsNoon, JSDate.ofLocal, dstZone, msPerDay, JSDate.mk.injEq, if_true,
    Bool.false_eq_true, if_false]
  split_ifs <;> constructor <;> omega

/-- In a zone that keeps the noon of the day of `now`, `setHours(12, 0, 0, 0)` gives noon
of that day. -/
theorem setHours_noon (zone : TimeZone) (now : JSDate) (h : KeepsNoon zone now.day) :
    now.setHours zone 12 0 0 0 = { day := now.day, msOfDay := 43200000 } := h

/-- In a zone that keeps the noon of the day `i` days back, `setDate(getDate() - i)` on a
date at noon gives noon of that day. -/
theorem setDate_back (zone : TimeZone) (base : JSDate) (i : Nat)
    (hb : base.msOfDay = 43200000) (h : KeepsNoon zone (base.day - (i : Int))) :
    base.setDate zone (base.getDate - (i : Int))
      = { day := base.day - (i : Int), msOfDay := 43200000 } := by
  have e : (base.day - (base.getDate - 1)) + (base.getDate - (i : Int)) - 1
      = base.day - (i : Int) := by omega
  simp only [JSDate.setDate, e, hb]
  exact h

/-- The loop of `getLastNDates` over a base at noon, from index `i` on, in a zone that
keeps the noon of each of the `k` days from `i` days back: noon of each of these days. -/
theorem getLastNDatesLoop_eq (zone : TimeZone) (base : JSDate)
    (hb : base.msOfDay = 43200000) : ∀ (k i : Nat),
    (∀ t, t < k → KeepsNoon zone (base.day - ((i + t : Nat) : Int))) →
    getLastNDatesLoop zone base i k = (List.range' i k).map (noonDaysAgo base) := by
  intro k
  induction k with
  | zero => intro i _; rfl
  | succ k ih =>
    intro i hz
    have hd := setDate_back zone base i hb (by simpa using hz 0 (by omega))
    have hrest := ih (i + 1) (fun t ht => by
      have := hz (t + 1) (by omega)
      have e : i + (t + 1) = i + 1 + t := by omega
      rwa [e] at this)
    simp only [getLastNDatesLoop, List.range', List.map_cons, hrest, hd, noonDaysAgo]

/-- The dates of `getLastNDates(n)` in a zone that keeps the noon of each of the `n` days
from today back: noon of each of these days. -/
theorem getLastNDates_eq (zone : TimeZone) (now : JSDate) (n : Nat)
    (hz : ∀ i, i < n → KeepsNoon zone (now.day - (i : Int))) :
    getLastNDates zone now n = (List.range n).map (noonDaysAgo now) := by
  cases n with
  | zero => rfl
  | succ n =>
    have hb : now.setHours zone 12 0 0 0 = { day := now.day, msOfDay := 43200000 } :=
      setHours_noon zone now (by simpa using hz 0 (by omega))
    simp only [getLastNDates, hb]
    rw [getLastNDatesLoop_eq zone _ rfl (n + 1) 0 (fun t ht => by simpa using hz t ht),
      List.range_eq_range']
    rfl

/-- The loop of `getLastNDates` returns as many dates as it makes turns, in every zone. -/
theorem getLastNDatesLoop_length (zone : TimeZone) (base : JSDate) : ∀ (k i : Nat),
    (getLastNDatesLoop zone base i k).length = k := by
  intro k
  induction k with
  | zero => intro i; rfl
  | succ k ih => intro i; simp [getLastNDatesLoop, ih]

/-- The loop of `getLastNDates` over `k + m` turns is the loop over `k` turns followed by
the loop over the next `m` turns, in every zone. -/
theorem getLastNDatesLoop_append (zone : TimeZone) (base : JSDate) : ∀ (k m i : Nat),
    getLastNDatesLoop zone base i (k + m)
      = getLastNDatesLoop zone base i k ++ getLastNDatesLoop zone base (i + k) m := by
  intro k
  induction k with
  | zero => intro m i; simp [getLastNDatesLoop]
  | succ k ih =>
    intro m i
    have e : k + 1 + m = (k + m) + 1 := by omega
    have e2 : i + (k + 1) = i + 1 + k := by omega
    rw [e]
    simp only [getLastNDatesLoop, ih, e2, List.cons_append]

/-- The 30 dates of the streak scan start with the 7 dates of the recap, in every zone. -/
theorem getLastNDates_thirty (zone : TimeZone) (now : JSDate) :
    getLastNDates zone now 30 = getLastNDates zone now 7
      ++ getLastNDatesLoop zone (now.setHours zone 12 0 0 0) 7 23 := by
  simp only [getLastNDates]
  exact getLastNDatesLoop_append zone _ 7 23 0

/-- The function `getLastNDates(n)` returns `n` dates, in every zone. -/
theorem getLastNDates_length (zone : TimeZone) (now : JSDate) (n : Nat) :
    (getLastNDates zone now n).length = n :=
  getLastNDatesLoop_length zone _ n 0

/-- Filtering the done items keeps the length exactly when every item is done. -/
theorem filter_length_eq_iff (l : List Item) :
    (l.filter (fun t => t.done)).length = l.length ↔ ∀ t ∈ l, t.done = true := by
  induction l with
  | nil => simp
  | cons a l ih =>
    have hle := List.length_filter_le (fun t : Item => t.done) l
    cases h : a.done
    · simp only [List.filter, h, List.length_cons, List.mem_cons, forall_eq_or_imp]
      constructor
      · intro h2; omega
      · intro h2; exact absurd h2.1 (by simp)
    · simp only [List.filter, h, List.length_cons, List.mem_cons, forall_eq_or_imp, true_and,
        add_left_inj]
      exact ih

/-- The flag `total > 0 && done === total` of the list under a key says that the day is fully
done. -/
theorem fullDoneOf_iff (map : DayMap) (key : String) :
    fullDoneOf (doneOf (map key)) (totalOf (map key)) = true ↔ FullyDone map key := by
  unfold FullyDone fullDoneOf
  simp only [Bool.and_eq_true, decide_eq_true_eq]
  constructor
  · intro ⟨h1, h2⟩
    rcases hm : map key with _ | v
    · simp [hm, totalOf] at h1
    · cases v with
      | notArray => simp [hm, totalOf] at h1
      | arr l =>
        simp only [hm, totalOf, doneOf] at h1 h2
        refine ⟨l, rfl, ?_, (filter_length_eq_iff l).mp h2⟩
        intro hl; subst hl; simp at h1
  · rintro ⟨l, hm, hne, hall⟩
    simp only [hm, totalOf, doneOf]
    exact ⟨List.length_pos.mpr hne, (filter_length_eq_iff l).mpr hall⟩


/-- The loop of the streak over the noons of the `n` days from `i` days back adds to `s`
the length of the run of fully done days that starts there. -/
theorem streakLoop_spec (map : DayMap) (now : JSDate) : ∀ (n i s : Nat), ∃ j : Nat,
    streakLoop map ((List.range' i n).map (noonDaysAgo now)) s = s + j ∧ j ≤ n ∧
    (∀ t, t < j → FullyDone map (keyDaysAgo now (i + t))) ∧
    (j = n ∨ ¬ FullyDone map (keyDaysAgo now (i + j))) := by
  intro n
  induction n with
  | zero => intro i s; exact ⟨0, by simp [streakLoop], le_refl _, by simp, Or.inl rfl⟩
  | succ n ih =>
    intro i s
    have hk : dateKey (noonDaysAgo now i) = keyDaysAgo now i := dateKey_congr _ _ rfl
    by_cases hfd : FullyDone map (keyDaysAgo now i)
    · obtain ⟨j, h1, h2, h3, h4⟩ := ih (i + 1) (s + 1)
      refine ⟨j + 1, ?_, by omega, ?_, ?_⟩
      · simp only [List.range', List.map_cons, streakLoop, hk,
          (fullDoneOf_iff map _).mpr hfd, if_true]
        rw [h1]; omega
      · intro t ht
        rcases Nat.eq_zero_or_pos t with h0 | h0
        · subst h0; simpa using hfd
        · have := h3 (t - 1) (by omega)
          have e : i + 1 + (t - 1) = i + t := by omega
          rwa [e] at this
      · rcases h4 with h4 | h4
        · exact Or.inl (by omega)
        · right
          have e : i + 1 + j = i + (j + 1) := by omega
          rwa [e] at h4
    · refine ⟨0, ?_, by omega, by simp, Or.inr (by simpa using hfd)⟩
      have : fullDoneOf (doneOf (map (keyDaysAgo now i))) (totalOf (map (keyDaysAgo now i)))
          = false := by
        rw [← Bool.not_eq_true, fullDoneOf_iff]; exact hfd
      simp [List.range', streakLoop, hk, this]

/-- The characterisation of the streak determines it. -/
theorem streak_unique (map : DayMap) (now : JSDate) (n k1 k2 : Nat)
    (a1 : k1 ≤ n) (b1 : ∀ t, t < k1 → FullyDone map (keyDaysAgo now t))
    (c1 : k1 = n ∨ ¬ FullyDone map (keyDaysAgo now k1))
    (a2 : k2 ≤ n) (b2 : ∀ t, t < k2 → FullyDone map (keyDaysAgo now t))
    (c2 : k2 = n ∨ ¬ FullyDone map (keyDaysAgo now k2)) : k1 = k2 := by
  rcases Nat.lt_trichotomy k1 k2 with h | h | h
  · rcases c1 with c | c
    · omega
    · exact absurd (b2 k1 h) c
  · exact h
  · rcases c2 with c | c
    · omega
    · exact absurd (b1 k2 h) c

/-- The streak of the effect satisfies the characterisation of the run over 30 days, in a
zone that keeps the noon of each of the 30 days. -/
theorem streakScan_spec (zone : TimeZone) (now : JSDate) (map : DayMap)
    (hz : ∀ i : Nat, i < 30 → KeepsNoon zone (now.day - (i : Int))) :
    streakScan zone now map ≤ 30 ∧
    (∀ t, t < streakScan zone now map → FullyDone map (keyDaysAgo now t)) ∧
    (streakScan zone now map = 30 ∨
      ¬ FullyDone map (keyDaysAgo now (streakScan zone now map))) := by
  obtain ⟨j, h1, h2, h3, h4⟩ := streakLoop_spec map now 30 0 0
  have e : streakScan zone now map = j := by
    simp only [streakScan, getLastNDates_eq zone now 30 hz, List.range_eq_range']
    rw [h1]; omega
  rw [e]
  simp only [Nat.zero_add] at h3 h4
  exact ⟨h2, h3, h4⟩

/-- Being fully done depends on the value stored under the key only. -/
theorem fullyDone_congr (map map2 : DayMap) (key : String) (h : map2 key = map key) :
    FullyDone map2 key ↔ FullyDone map key := by
  unfold FullyDone; rw [h]

/-- C1, amended: in a time zone that keeps the local noon of each of the 30 days of the
window (it skips none of them), the streak is the length of the longest run of fully done
days that starts at today and goes back one calendar day at a time inside the 30-day
window. It is at most 30, every one of the days today, ..., today-(k-1) is fully done (a
list is stored, it is not empty, all its items are done, that is total > 0 and
done = total), and either k = 30 or the day today-k is not fully done; it is the only such
k. A map that agrees on the days up to the first day that is not fully done, inside the
window, gives the same streak; when today and yesterday are fully done and the day before
is not, the streak is 2 whatever the older days hold. The streak effect sets exactly this
value. -/
theorem streak_longest_run (zone : TimeZone) (now : JSDate) (map : DayMap)
    (hz : ∀ i : Nat, i < 30 → KeepsNoon zone (now.day - (i : Int))) :
    (streakScan zone now map ≤ 30 ∧
      (∀ t, t < streakScan zone now map → FullyDone map (keyDaysAgo now t)) ∧
      (streakScan zone now map = 30 ∨
        ¬ FullyDone map (keyDaysAgo now (streakScan zone now map)))) ∧
    (∀ k, k ≤ 30 → (∀ t, t < k → FullyDone map (keyDaysAgo now t)) →
      (k = 30 ∨ ¬ FullyDone map (keyDaysAgo now k)) → streakScan zone now map = k) ∧
    (∀ map2 : DayMap,
      (∀ t, t ≤ streakScan zone now map → t < 30 →
        map2 (keyDaysAgo now t) = map (keyDaysAgo now t)) →
      streakScan zone now map2 = streakScan zone now map) ∧
    (FullyDone map (keyDaysAgo now 0) → FullyDone map (keyDaysAgo now 1) →
      ¬ FullyDone map (keyDaysAgo now 2) → streakScan zone now map = 2) ∧
    (∀ key, FullyDone map key ↔
      (0 < totalOf (map key) ∧ doneOf (map key) = totalOf (map key))) ∧
    (∀ data prev, streakEffect zone now (QueryResult.ok data) true prev
      = streakScan zone now (mapOf (data.getD []))) := by
  obtain ⟨a, b, c⟩ := streakScan_spec zone now map hz
  have uniq : ∀ k, k ≤ 30 → (∀ t, t < k → FullyDone map (keyDaysAgo now t)) →
      (k = 30 ∨ ¬ FullyDone map (keyDaysAgo now k)) → streakScan zone now map = k :=
    fun k hk hb hc => streak_unique map now 30 _ _ a b c hk hb hc
  refine ⟨⟨a, b, c⟩, uniq, ?_, ?_, ?_, ?_⟩
  · intro map2 hagree
    obtain ⟨a2, b2, c2⟩ := streakScan_spec zone now map2 hz
    refine streak_unique map2 now 30 _ _ a2 b2 c2 a ?_ ?_
    · intro t ht
      exact (fullyDone_congr map map2 _ (hagree t (by omega) (by omega))).mpr (b t ht)
    · by_cases hk : streakScan zone now map = 30
      · exact Or.inl hk
      · right
        have hlt : streakScan zone now map < 30 := by omega
        have c3 : ¬ FullyDone map (keyDaysAgo now (streakScan zone now map)) := by
          rcases c with c | c
          · exact absurd c hk
          · exact c
        exact fun h => c3 ((fullyDone_congr map map2 _ (hagree _ (le_refl _) hlt)).mp h)
  · intro h0 h1 h2
    refine uniq 2 (by omega) ?_ (Or.inr h2)
    intro t ht
    rcases Nat.lt_or_ge t 1 with h | h
    · have : t = 0 := by omega
      subst this; exact h0
    · have : t = 1 := by omega
      subst this; exact h1
  · intro key
    rw [← fullDoneOf_iff]
    simp [fullDoneOf]
  · intro data prev
    rfl

/-- C1, amended, in a zone with daylight saving at 08:00 of 2024-04-01, the day after the
transition: every day of the window keeps its noon, and over a store in which today and
yesterday are fully done, the day before is empty and the day before that is fully done
again, the streak is 2. -/
theorem streak_longest_run_witness :
    (∀ i : Nat, i < 30 → KeepsNoon dstZone ((JSDate.mk 19814 28800000).day - (i : Int))) ∧
    streakScan dstZone (JSDate.mk 19814 28800000)
      (mapOf [⟨"2024-03-29", ItemsVal.arr [⟨"d", "t", true, JSVal.str "low"⟩]⟩,
              ⟨"2024-03-31", ItemsVal.arr [⟨"b", "t", true, JSVal.str "med"⟩]⟩,
              ⟨"2024-03-30", ItemsVal.arr []⟩,
              ⟨"2024-04-01", ItemsVal.arr [⟨"a", "t", true, JSVal.undefined⟩]⟩]) = 2 :=
  ⟨fun _ _ => keepsNoon_dstZone _,
   (streak_longest_run dstZone (JSDate.mk 19814 28800000) _
      (fun _ _ => keepsNoon_dstZone _)).2.2.2.1
      ((fullDoneOf_iff _ _).mp (by decide)) ((fullDoneOf_iff _ _).mp (by decide))
      (fun h => absurd ((fullDoneOf_iff _ _).mpr h) (by decide))⟩

/-- C1 fails in a zone that skips a local day. In the zone of Apia at 17:00 of 2012-01-01,
over a store in which 2012-01-01, 2011-12-31 and 2011-12-29 are fully done and nothing is
stored for 2011-12-30, today and the day before are fully done and the day two days back
is not, so the run of fully done days from today back has length 2; the streak of the scan
is 4, because the local noon of the skipped 2011-12-30 is the noon of 2011-12-31, which is
counted a second time, and 2011-12-29 is counted after it. -/
theorem streak_longest_run_counterexample :
    (∀ t, t < 2 → FullyDone (mapOf apiaStore) (keyDaysAgo (JSDate.mk 15340 61200000) t)) ∧
    ¬ FullyDone (mapOf apiaStore) (keyDaysAgo (JSDate.mk 15340 61200000) 2) ∧
    keyDaysAgo (JSDate.mk 15340 61200000) 2 = "2011-12-30" ∧
    streakScan apiaZone (JSDate.mk 15340 61200000) (mapOf apiaStore) = 4 ∧
    ¬ (∀ t, t < streakScan apiaZone (JSDate.mk 15340 61200000) (mapOf apiaStore) →
        FullyDone (mapOf apiaStore) (keyDaysAgo (JSDate.mk 15340 61200000) t)) := by
  have h2 : ¬ FullyDone (mapOf apiaStore) (keyDaysAgo (JSDate.mk 15340 61200000) 2) :=
    fun h => absurd ((fullDoneOf_iff _ _).mpr h) (by decide)
  have h4 : streakScan apiaZone (JSDate.mk 15340 61200000) (mapOf apiaStore) = 4 := by
    decide
  refine ⟨?_, h2, by decide, h4, ?_⟩
  · intro t ht
    rcases Nat.lt_or_ge t 1 with h | h
    · have : t = 0 := by omega
      subst this; exact (fullDoneOf_iff _ _).mp (by decide)
    · have : t = 1 := by omega
      subst this; exact (fullDoneOf_iff _ _).mp (by decide)
  · intro hall
    rw [h4] at hall
    exact h2 (hall 2 (by omega))

/-- The streak over a store in which today and yesterday are fully done, the day before
is empty and the day before that is fully done again, in a zone at a fixed offset. -/
theorem streak_example :
    streakScan utcZone (JSDate.mk 19723 61200000)
      (mapOf [⟨"2023-12-29", ItemsVal.arr [⟨"d", "t", true, JSVal.str "low"⟩]⟩,
              ⟨"2023-12-31", ItemsVal.arr [⟨"b", "t", true, JSVal.str "med"⟩]⟩,
              ⟨"2023-12-30", ItemsVal.arr []⟩,
              ⟨"2024-01-01", ItemsVal.arr [⟨"a", "t", true, JSVal.undefined⟩]⟩]) = 2 := by
  decide

/-! ## The recap -/

/-- C2: the recap row of a day has total = the length of the list stored under the key of
the day and done = the number of stored items whose done flag is true, both 0 when no
list is stored under the key, and fullDone = (total > 0 and done = total); the rows of the
recap are these rows for the seven days of the window. -/
theorem recapRow_counts (map : DayMap) (d : JSDate) :
    (∀ l, map (dateKey d) = some (ItemsVal.arr l) →
      (recapRow map d).total = l.length ∧
      (recapRow map d).done = l.countP (fun t => t.done)) ∧
    ((∀ l, map (dateKey d) ≠ some (ItemsVal.arr l)) →
      (recapRow map d).total = 0 ∧ (recapRow map d).done = 0) ∧
    ((recapRow map d).fullDone = true ↔
      (0 < (recapRow map d).total ∧ (recapRow map d).done = (recapRow map d).total)) ∧
    (recapRow map d).date = d ∧
    (∀ zone now data, recapEffect zone now (QueryResult.ok data)
      = (getLastNDates zone now 7).map (recapRow (mapOf (data.getD [])))) := by
  refine ⟨?_, ?_, ?_, rfl, fun _ _ _ => rfl⟩
  · intro l h
    simp [recapRow, h, totalOf, doneOf, List.countP_eq_length_filter]
  · intro h
    rcases hm : map (dateKey d) with _ | v
    · simp [recapRow, hm, totalOf, doneOf]
    · cases v with
      | notArray => simp [recapRow, hm, totalOf, doneOf]
      | arr l => exact absurd hm (h l)
  · simp [recapRow, fullDoneOf]

/-- C3, evaluated on a day with 40 stored tasks of which 23 are done: the exact value
100 * 23 / 40 is 57.5, whose nearest integer with a half rounding up is 58, while the
code's `Math.round((done / total) * 100)` is 57, because the binary64 quotient 23 / 40
is below 0.575 and its binary64 product with 100 is below 57.5. -/
theorem recap_percent_rounding_failure :
    (recapRow (mapOf [⟨"2024-01-01", ItemsVal.arr (tasksDone 23 40)⟩])
        (JSDate.mk 19723 43200000)).total = 40 ∧
    (recapRow (mapOf [⟨"2024-01-01", ItemsVal.arr (tasksDone 23 40)⟩])
        (JSDate.mk 19723 43200000)).done = 23 ∧
    (recapRow (mapOf [⟨"2024-01-01", ItemsVal.arr (tasksDone 23 40)⟩])
        (JSDate.mk 19723 43200000)).percent = 57 ∧
    exactPercent 23 40 = 58 ∧
    jsDiv 23 40 = ⟨165732466287234240, 58⟩ ∧
    jsMul (jsDiv 23 40) 100 = ⟨149278534682876275873507695755526144, 111⟩ ∧
    2 * (jsMul (jsDiv 23 40) 100).num < 115 * 2 ^ (jsMul (jsDiv 23 40) 100).exp := by
  decide

/-! ## Seeding the day -/

/-- Normalising a priority twice is normalising it once. -/
theorem normalizePriority_idem (p : JSVal) :
    normalizePriority (normalizePriority p) = normalizePriority p := by
  by_cases h : PRIORITIES.contains p = true
  · have e : normalizePriority p = p := by
      unfold normalizePriority; rw [if_pos h]
    rw [e, e]
  · have e : normalizePriority p = JSVal.str "med" := by
      unfold normalizePriority; rw [if_neg h]
    rw [e]; decide

/-- The built list has the length of the template. -/
theorem build_length (template : List TemplateItem) : ∀ rng : Rng,
    (buildDailyFromTemplate template rng).1.length = template.length := by
  induction template with
  | nil => intro rng; rfl
  | cons t rest ih =>
    intro rng
    simp only [buildDailyFromTemplate, randomUUID, List.length_cons, ih]

/-- Building draws one identifier per entry of the template. -/
theorem build_rng (template : List TemplateItem) : ∀ rng : Rng,
    (buildDailyFromTemplate template rng).2
      = { stream := rng.stream, next := rng.next + template.length } := by
  induction template with
  | nil => intro rng; rfl
  | cons t rest ih =>
    intro rng
    simp only [buildDailyFromTemplate, randomUUID, List.length_cons, ih]
    congr 1
    omega

/-- The built item at a position, from the template entry at that position. -/
theorem build_getElem? (template : List TemplateItem) : ∀ (rng : Rng) (i : Nat),
    (buildDailyFromTemplate template rng).1[i]?
      = template[i]?.map (fun t =>
          ({ id := rng.stream (rng.next + i), title := t.title, done := false,
             priority := normalizePriority t.priority } : Item)) := by
  induction template with
  | nil => intro rng i; simp [buildDailyFromTemplate]
  | cons t rest ih =>
    intro rng i
    cases i with
    | zero => simp [buildDailyFromTemplate, randomUUID]
    | succ i =>
      simp only [buildDailyFromTemplate, randomUUID, List.getElem?_cons_succ, ih]
      have e : rng.next + 1 + i = rng.next + (i + 1) := by omega
      simp [e]

/-- The priorities of a built list are already normalised. -/
theorem build_normalized (template : List TemplateItem) : ∀ rng : Rng,
    (buildDailyFromTemplate template rng).1.map
        (fun t => { t with priority := normalizePriority t.priority })
      = (buildDailyFromTemplate template rng).1 := by
  induction template with
  | nil => intro rng; rfl
  | cons t rest ih =>
    intro rng
    simp only [buildDailyFromTemplate, randomUUID, List.map_cons, ih, normalizePriority_idem]

/-- A successful read of a stored array returns its items with normalised priorities. -/
theorem load_stored (db : DailyTable) (userId day : String) (items : List Item)
    (h : db userId day = some (ItemsVal.arr items)) :
    loadDailyFromDB db true userId day = Except.ok (some (items.map normalizeItem)) := by
  simp only [loadDailyFromDB, h, if_true]
  rfl

/-- The outcome of the load step over a stored list that is not empty. -/
theorem load_existing_outcome (userId dayISO : String) (template : List TemplateItem)
    (saveOk : Bool) (db : DailyTable) (rng : Rng) (items : List Item)
    (hstored : db userId dayISO = some (ItemsVal.arr items)) (hne : items ≠ []) :
    loadTodayEffect userId dayISO template true true saveOk db rng
      = { setTasks := [items.map normalizeItem], saves := [], db := db, rng := rng } := by
  obtain ⟨t, rest, rfl⟩ := List.exists_cons_of_ne_nil hne
  simp only [loadTodayEffect, load_stored db userId dayISO _ hstored, List.map_cons]
  rfl

/-- The outcome of the load step over a key without a list or with an empty list, when the
save succeeds. -/
theorem load_seed_outcome (userId dayISO : String) (template : List TemplateItem)
    (db : DailyTable) (rng : Rng)
    (h : ∀ t rest, db userId dayISO ≠ some (ItemsVal.arr (t :: rest))) :
    loadTodayEffect userId dayISO template true true true db rng
      = { setTasks := [(buildDailyFromTemplate template rng).1],
          saves := [⟨userId, dayISO, (buildDailyFromTemplate template rng).1⟩],
          db := db.upsert userId dayISO (buildDailyFromTemplate template rng).1,
          rng := (buildDailyFromTemplate template rng).2 } := by
  rcases hm : db userId dayISO with _ | v
  · simp [loadTodayEffect, loadDailyFromDB, hm, saveDailyToDB]
  · cases v with
    | notArray => simp [loadTodayEffect, loadDailyFromDB, hm, saveDailyToDB]
    | arr l =>
      cases l with
      | nil => simp [loadTodayEffect, loadDailyFromDB, hm, saveDailyToDB]
      | cons t rest => exact absurd hm (h t rest)

/-- Reading a built list back leaves it unchanged. -/
theorem map_normalizeItem_build (template : List TemplateItem) (rng : Rng) :
    (buildDailyFromTemplate template rng).1.map normalizeItem
      = (buildDailyFromTemplate template rng).1 :=
  build_normalized template rng

/-- Normalising the items of a list twice is normalising them once. -/
theorem map_normalizeItem_idem (items : List Item) :
    (items.map normalizeItem).map normalizeItem = items.map normalizeItem := by
  simp [List.map_map, Function.comp_def, normalizeItem, normalizePriority_idem]

/-- C4: when a non-empty list is stored for the user and today, the load step (the read
succeeds and the effect is current) sets the task list to the stored items in stored
order, ids, titles and done flags unchanged and each priority normalised; it issues no
save and draws no identifier, and the resulting task list is the same for any two
templates. -/
theorem load_uses_existing_snapshot (userId dayISO : String) (template : List TemplateItem)
    (saveOk : Bool) (db : DailyTable) (rng : Rng) (items prev : List Item)
    (hstored : db userId dayISO = some (ItemsVal.arr items)) (hne : items ≠ []) :
    (loadTodayEffect userId dayISO template true true saveOk db rng).setTasks
      = [items.map normalizeItem] ∧
    (loadTodayEffect userId dayISO template true true saveOk db rng).tasksAfter prev
      = items.map normalizeItem ∧
    (loadTodayEffect userId dayISO template true true saveOk db rng).saves = [] ∧
    (loadTodayEffect userId dayISO template true true saveOk db rng).rng.next = rng.next ∧
    (∀ (template2 : List TemplateItem) (saveOk2 : Bool),
      (loadTodayEffect userId dayISO template2 true true saveOk2 db rng).tasksAfter prev
        = (loadTodayEffect userId dayISO template true true saveOk db rng).tasksAfter prev) := by
  have key : ∀ (tpl : List TemplateItem) (so : Bool),
      loadTodayEffect userId dayISO tpl true true so db rng
        = { setTasks := [items.map normalizeItem], saves := [], db := db, rng := rng } :=
    fun tpl so => load_existing_outcome userId dayISO tpl so db rng items hstored hne
  refine ⟨?_, ?_, ?_, ?_, ?_⟩
  · rw [key]
  · rw [key]; rfl
  · rw [key]
  · rw [key]
  · intro t2 s2; rw [key, key]

/-- C4, on a table that holds one done task without a priority for the user and the day. -/
theorem load_uses_existing_snapshot_witness :
    (emptyTable.upsert "u" "2024-01-01" [⟨"a", "Cek email masuk", true, JSVal.undefined⟩])
        "u" "2024-01-01"
      = some (ItemsVal.arr [⟨"a", "Cek email masuk", true, JSVal.undefined⟩]) ∧
    (loadTodayEffect "u" "2024-01-01" [] true true true
        (emptyTable.upsert "u" "2024-01-01" [⟨"a", "Cek email masuk", true, JSVal.undefined⟩])
        countingRng).tasksAfter []
      = [⟨"a", "Cek email masuk", true, JSVal.str "med"⟩] :=
  ⟨by decide,
   (load_uses_existing_snapshot "u" "2024-01-01" [] true
      (emptyTable.upsert "u" "2024-01-01" [⟨"a", "Cek email masuk", true, JSVal.undefined⟩])
      countingRng [⟨"a", "Cek email masuk", true, JSVal.undefined⟩] [] (by decide)
      (by decide)).2.1.trans (by decide)⟩

/-- C5: when the load for the user and today succeeds and returns no record or an empty
list, the load step (the effect is current) sets the task list to
`buildDailyFromTemplate(template)` and issues one save for the user and today whose items
are that same list; when the save succeeds this list is the task list after the step and
the row of the table. -/
theorem load_seeds_without_snapshot (userId dayISO : String) (template : List TemplateItem)
    (loadOk saveOk : Bool) (db : DailyTable) (rng : Rng)
    (h : loadDailyFromDB db loadOk userId dayISO = Except.ok none ∨
         loadDailyFromDB db loadOk userId dayISO = Except.ok (some [])) :
    (loadTodayEffect userId dayISO template loadOk true saveOk db rng).setTasks.head?
      = some (buildDailyFromTemplate template rng).1 ∧
    (loadTodayEffect userId dayISO template loadOk true saveOk db rng).saves
      = [⟨userId, dayISO, (buildDailyFromTemplate template rng).1⟩] ∧
    (saveOk = true →
      (loadTodayEffect userId dayISO template loadOk true saveOk db rng).setTasks
        = [(buildDailyFromTemplate template rng).1] ∧
      (∀ prev, (loadTodayEffect userId dayISO template loadOk true saveOk db rng).tasksAfter prev
        = (buildDailyFromTemplate template rng).1) ∧
      (loadTodayEffect userId dayISO template loadOk true saveOk db rng).db
        = db.upsert userId dayISO (buildDailyFromTemplate template rng).1) := by
  cases saveOk
  · rcases h with h | h <;>
      simp [loadTodayEffect, h, saveDailyToDB]
  · rcases h with h | h <;>
      simp [loadTodayEffect, h, saveDailyToDB, EffectOutcome.tasksAfter]


/-- C5, on a table without rows and a template of one entry. -/
theorem load_seeds_without_snapshot_witness :
    loadDailyFromDB emptyTable true "u" "2024-01-01" = Except.ok none ∧
    (loadTodayEffect "u" "2024-01-01" [⟨"t1", "Cek email masuk", JSVal.str "high"⟩]
        true true true emptyTable countingRng).saves
      = [⟨"u", "2024-01-01", [⟨"0", "Cek email masuk", false, JSVal.str "high"⟩]⟩] :=
  ⟨rfl,
   (load_seeds_without_snapshot "u" "2024-01-01" [⟨"t1", "Cek email masuk", JSVal.str "high"⟩]
      true true emptyTable countingRng (Or.inl rfl)).2.1.trans (by decide)⟩

/-- C6: `buildDailyFromTemplate` returns a list of the length of the template whose item
at every position is not done, has the title of the template item at that position, its
priority normalised and a fresh identifier; a confirmed reset from the template sets the
task list to exactly this list, whatever the task list was before. -/
theorem buildDailyFromTemplate_spec (template : List TemplateItem) (rng : Rng) :
    (buildDailyFromTemplate template rng).1.length = template.length ∧
    (∀ i : Nat, (buildDailyFromTemplate template rng).1[i]?
      = template[i]?.map (fun t =>
          ({ id := rng.stream (rng.next + i), title := t.title, done := false,
             priority := normalizePriority t.priority } : Item))) ∧
    (∀ s : Dashboard, (modalConfirm (resetTodayFromTemplate s)).tasks
      = (buildDailyFromTemplate s.template s.rng).1) ∧
    (∀ (s : Dashboard) (before : List Item),
      (modalConfirm (resetTodayFromTemplate { s with tasks := before })).tasks
        = (modalConfirm (resetTodayFromTemplate s)).tasks) :=
  ⟨build_length template rng, build_getElem? template rng, fun _ => rfl, fun _ _ => rfl⟩


/-- C7 fails for an empty template: the first run stores an empty list, its save
succeeds, and a second run with a template of one entry reads the empty list back and
seeds again, so the first run yields no task and the second yields one. -/
theorem seeding_idempotence_counterexample :
    (loadTodayEffect "u" "2024-01-01" [] true true true emptyTable countingRng).tasksAfter []
      = [] ∧
    (loadTodayEffect "u" "2024-01-01" [] true true true emptyTable countingRng).saves
      = [⟨"u", "2024-01-01", []⟩] ∧
    (loadTodayEffect "u" "2024-01-01" [] true true true emptyTable countingRng).db
        "u" "2024-01-01" = some (ItemsVal.arr []) ∧
    (loadTodayEffect "u" "2024-01-01" [⟨"t1", "Cek email masuk", JSVal.str "med"⟩]
        true true true
        (loadTodayEffect "u" "2024-01-01" [] true true true emptyTable countingRng).db
        (loadTodayEffect "u" "2024-01-01" [] true true true emptyTable countingRng).rng).tasksAfter
        []
      = [⟨"0", "Cek email masuk", false, JSVal.str "med"⟩] := by
  decide

/-- C7, amended: if a run of the load step (read and save succeed, the effect is current)
yields a task list that is not empty, a second run on the table it leaves, with any
template, yields the identical task list and issues no save. -/
theorem seeding_idempotent_of_nonempty (userId dayISO : String)
    (template1 template2 : List TemplateItem) (saveOk2 : Bool) (db : DailyTable) (rng : Rng)
    (prev : List Item)
    (hne : (loadTodayEffect userId dayISO template1 true true true db rng).tasksAfter prev
      ≠ []) :
    (loadTodayEffect userId dayISO template2 true true saveOk2
        (loadTodayEffect userId dayISO template1 true true true db rng).db
        (loadTodayEffect userId dayISO template1 true true true db rng).rng).tasksAfter
        ((loadTodayEffect userId dayISO template1 true true true db rng).tasksAfter prev)
      = (loadTodayEffect userId dayISO template1 true true true db rng).tasksAfter prev ∧
    (loadTodayEffect userId dayISO template2 true true saveOk2
        (loadTodayEffect userId dayISO template1 true true true db rng).db
        (loadTodayEffect userId dayISO template1 true true true db rng).rng).saves = [] := by
  by_cases hex : ∃ t rest, db userId dayISO = some (ItemsVal.arr (t :: rest))
  · obtain ⟨t, rest, hs⟩ := hex
    have h1 := load_existing_outcome userId dayISO template1 true db rng (t :: rest) hs
      (List.cons_ne_nil _ _)
    rw [h1]
    have h2 := load_existing_outcome userId dayISO template2 saveOk2 db rng (t :: rest) hs
      (List.cons_ne_nil _ _)
    simp only [h2]
    exact ⟨rfl, trivial⟩
  · have hno : ∀ t rest, db userId dayISO ≠ some (ItemsVal.arr (t :: rest)) :=
      fun t rest h => hex ⟨t, rest, h⟩
    have h1 := load_seed_outcome userId dayISO template1 db rng hno
    rw [h1] at hne ⊢
    have hseed : (buildDailyFromTemplate template1 rng).1 ≠ [] := by
      simpa [EffectOutcome.tasksAfter] using hne
    have hs : (db.upsert userId dayISO (buildDailyFromTemplate template1 rng).1) userId dayISO
        = some (ItemsVal.arr (buildDailyFromTemplate template1 rng).1) := by
      simp [DailyTable.upsert]
    have h2 := load_existing_outcome userId dayISO template2 saveOk2 _
      (buildDailyFromTemplate template1 rng).2 _ hs hseed
    simp only [h2, map_normalizeItem_build]
    exact ⟨rfl, trivial⟩

/-- C7 amended, on a table without rows, a first template of one entry and an empty
second template. -/
theorem seeding_idempotent_of_nonempty_witness :
    (loadTodayEffect "u" "2024-01-01" [⟨"t1", "Cek email masuk", JSVal.str "high"⟩]
        true true true emptyTable countingRng).tasksAfter [] ≠ [] ∧
    (loadTodayEffect "u" "2024-01-01" [] true true true
        (loadTodayEffect "u" "2024-01-01" [⟨"t1", "Cek email masuk", JSVal.str "high"⟩]
          true true true emptyTable countingRng).db
        (loadTodayEffect "u" "2024-01-01" [⟨"t1", "Cek email masuk", JSVal.str "high"⟩]
          true true true emptyTable countingRng).rng).tasksAfter
        ((loadTodayEffect "u" "2024-01-01" [⟨"t1", "Cek email masuk", JSVal.str "high"⟩]
          true true true emptyTable countingRng).tasksAfter [])
      = (loadTodayEffect "u" "2024-01-01" [⟨"t1", "Cek email masuk", JSVal.str "high"⟩]
          true true true emptyTable countingRng).tasksAfter [] :=
  ⟨by decide,
   (seeding_idempotent_of_nonempty "u" "2024-01-01"
      [⟨"t1", "Cek email masuk", JSVal.str "high"⟩] [] true emptyTable countingRng []
      (by decide)).1⟩

/-! ## The window of dates, the save effect, failures, progress and the export -/

/-- C12, amended: for every `n` and every current time, `getLastNDates(n)` returns exactly
`n` dates, and in a time zone that keeps the local noon of each of the `n` days from today
back (it skips none of them) they are in descending order: entry `i` is the calendar day
exactly `i` days before today (entry 0 is today), so that a later entry is an earlier day,
and every entry has the local time 12:00:00.000. -/
theorem getLastNDates_spec (zone : TimeZone) (now : JSDate) (n : Nat) :
    (getLastNDates zone now n).length = n ∧
    ((∀ i : Nat, i < n → KeepsNoon zone (now.day - (i : Int))) →
      getLastNDates zone now n = (List.range n).map (noonDaysAgo now) ∧
      (∀ i, i < n → (getLastNDates zone now n)[i]?
        = some { day := now.day - (i : Int),
                 msOfDay := ((12 * 60 + 0) * 60 + 0) * 1000 + 0 }) ∧
      (∀ (i j : Nat) (d1 d2 : JSDate), (getLastNDates zone now n)[i]? = some d1 →
        (getLastNDates zone now n)[j]? = some d2 → i < j → d2.day < d1.day) ∧
      (∀ d ∈ getLastNDates zone now n, d.msOfDay = 43200000)) := by
  refine ⟨getLastNDates_length zone now n, fun hz => ?_⟩
  have h := getLastNDates_eq zone now n hz
  refine ⟨h, ?_, ?_, ?_⟩
  · intro i hi
    rw [h]
    simp [List.getElem?_map, List.getElem?_range hi, noonDaysAgo]
  · intro i j d1 d2 h1 h2 hij
    rw [h] at h1 h2
    simp only [List.getElem?_map, Option.map_eq_some'] at h1 h2
    obtain ⟨a, ha, rfl⟩ := h1
    obtain ⟨b, hb, rfl⟩ := h2
    have ha2 := List.getElem?_eq_some_iff.mp ha
    have hb2 := List.getElem?_eq_some_iff.mp hb
    obtain ⟨ha3, ha4⟩ := ha2
    obtain ⟨hb3, hb4⟩ := hb2
    simp only [List.getElem_range] at ha4 hb4
    subst ha4; subst hb4
    simp only [noonDaysAgo]
    omega
  · intro d hd
    rw [h] at hd
    simp only [List.mem_map] at hd
    obtain ⟨i, _, rfl⟩ := hd
    rfl

/-- C12, amended, in the zone of Apia at 09:30 of 2012-01-05, whose four days back to
2012-01-02 all keep their noon: the four dates are the noons of 2012-01-05, 2012-01-04,
2012-01-03 and 2012-01-02. -/
theorem getLastNDates_spec_witness :
    (∀ i : Nat, i < 4 → KeepsNoon apiaZone ((JSDate.mk 15344 34200000).day - (i : Int))) ∧
    getLastNDates apiaZone (JSDate.mk 15344 34200000) 4
      = [⟨15344, 43200000⟩, ⟨15343, 43200000⟩, ⟨15342, 43200000⟩, ⟨15341, 43200000⟩] :=
  ⟨by intro i hi; interval_cases i <;> decide,
   ((getLastNDates_spec apiaZone (JSDate.mk 15344 34200000) 4).2
      (by intro i hi; interval_cases i <;> decide)).1⟩

/-- C12 fails in a zone that skips a local day. In the zone of Apia at 17:00 of 2012-01-01,
`getLastNDates(4)` returns the noons of 2012-01-01, 2011-12-31, 2011-12-31 again and
2011-12-29: entry 2 is not the day two days before today, the local day 2011-12-30, whose
noon the zone skips, and entry 2 is not an earlier day than entry 1. -/
theorem getLastNDates_counterexample :
    getLastNDates apiaZone (JSDate.mk 15340 61200000) 4
      = [⟨15340, 43200000⟩, ⟨15339, 43200000⟩, ⟨15339, 43200000⟩, ⟨15337, 43200000⟩] ∧
    (getLastNDates apiaZone (JSDate.mk 15340 61200000) 4).map dateKey
      = ["2012-01-01", "2011-12-31", "2011-12-31", "2011-12-29"] ∧
    (getLastNDates apiaZone (JSDate.mk 15340 61200000) 4)[2]?
      ≠ some { day := (JSDate.mk 15340 61200000).day - 2, msOfDay := 43200000 } ∧
    ¬ KeepsNoon apiaZone ((JSDate.mk 15340 61200000).day - 2) := by
  decide


/-- C11, amended: when the range read succeeds, whatever rows it returns, the recap has
exactly 7 rows, and in a time zone that keeps the local noon of each of the 7 days from
today back (it skips none of them) they are ordered most recent first: row `i` is the row
of the calendar day exactly `i` days before today, so row 0 is today, consecutive rows
differ by one calendar day and no day is repeated or skipped. -/
theorem recap_rows_window (zone : TimeZone) (now : JSDate) (data : Option (List DayRow)) :
    (recapEffect zone now (QueryResult.ok data)).length = 7 ∧
    ((∀ i : Nat, i < 7 → KeepsNoon zone (now.day - (i : Int))) →
      (∀ i, i < 7 → (recapEffect zone now (QueryResult.ok data))[i]?
        = some (recapRow (mapOf (data.getD [])) (noonDaysAgo now i))) ∧
      (∀ i, i < 7 → ((recapEffect zone now (QueryResult.ok data)).map (fun r => r.date))[i]?
        = some { day := now.day - (i : Int), msOfDay := 43200000 }) ∧
      (recapEffect zone now (QueryResult.ok data)).map (fun r => r.date.day)
        = [now.day, now.day - 1, now.day - 2, now.day - 3, now.day - 4, now.day - 5,
           now.day - 6] ∧
      ((recapEffect zone now (QueryResult.ok data)).map (fun r => r.date.day)).Nodup) := by
  refine ⟨by simp [recapEffect, getLastNDates_length], fun hz => ?_⟩
  have h : recapEffect zone now (QueryResult.ok data)
      = (List.range 7).map (fun i => recapRow (mapOf (data.getD [])) (noonDaysAgo now i)) := by
    simp only [recapEffect, getLastNDates_eq zone now 7 hz, List.map_map]
    rfl
  have hdays : (recapEffect zone now (QueryResult.ok data)).map (fun r => r.date.day)
      = [now.day, now.day - 1, now.day - 2, now.day - 3, now.day - 4, now.day - 5,
         now.day - 6] := by
    rw [h]
    simp [List.range_succ, recapRow, noonDaysAgo]
  refine ⟨?_, ?_, hdays, ?_⟩
  · intro i hi
    rw [h]
    simp [List.getElem?_map, List.getElem?_range hi]
  · intro i hi
    rw [h]
    simp [List.getElem?_map, List.getElem?_range hi, recapRow, noonDaysAgo]
  · rw [hdays]
    simp only [List.nodup_cons, List.mem_cons, List.mem_singleton, List.not_mem_nil,
      List.nodup_nil, and_true, or_false, not_or, not_false_eq_true]
    repeat' apply And.intro
    all_goals omega

/-- C11, amended, in the zone of Apia at 09:30 of 2012-01-08, whose seven days back to
2012-01-02 all keep their noon: the rows of the recap are those of the seven days from
2012-01-08 (day 15347) back to 2012-01-02 (day 15341). -/
theorem recap_rows_window_witness :
    (∀ i : Nat, i < 7 → KeepsNoon apiaZone ((JSDate.mk 15347 34200000).day - (i : Int))) ∧
    (recapEffect apiaZone (JSDate.mk 15347 34200000)
        (QueryResult.ok (some apiaStore))).map (fun r => r.date.day)
      = [15347, 15346, 15345, 15344, 15343, 15342, 15341] :=
  ⟨by intro i hi; interval_cases i <;> decide,
   ((recap_rows_window apiaZone (JSDate.mk 15347 34200000) (some apiaStore)).2
      (by intro i hi; interval_cases i <;> decide)).2.2.1⟩

/-- C11 fails in a zone that skips a local day. In the zone of Apia at 17:00 of 2012-01-02,
with a successful read, the recap has the row of 2011-12-31 twice and no row for the day
three days before today, the local day 2011-12-30, whose noon the zone skips; its rows
are those of 2012-01-02, 2012-01-01, 2011-12-31, 2011-12-31, 2011-12-29, 2011-12-28 and
2011-12-27. -/
theorem recap_rows_window_counterexample :
    (recapEffect apiaZone (JSDate.mk 15341 61200000)
        (QueryResult.ok (some apiaStore))).map (fun r => dateKey r.date)
      = ["2012-01-02", "2012-01-01", "2011-12-31", "2011-12-31", "2011-12-29", "2011-12-28",
         "2011-12-27"] ∧
    (recapEffect apiaZone (JSDate.mk 15341 61200000)
        (QueryResult.ok (some apiaStore))).map (fun r => r.date.day)
      = [15341, 15340, 15339, 15339, 15337, 15336, 15335] ∧
    ¬ ((recapEffect apiaZone (JSDate.mk 15341 61200000)
        (QueryResult.ok (some apiaStore))).map (fun r => r.date.day)).Nodup ∧
    (recapEffect apiaZone (JSDate.mk 15341 61200000) (QueryResult.ok (some apiaStore)))[3]?
      ≠ some (recapRow (mapOf apiaStore) (noonDaysAgo (JSDate.mk 15341 61200000) 3)) := by
  decide

/-- The loop of the streak counts the leading fully done rows of the recap of the same
dates. -/
theorem streakLoop_eq_leading (map : DayMap) : ∀ (ds : List JSDate) (s : Nat),
    streakLoop map ds s = s + leadingFullDone (ds.map (recapRow map)) := by
  intro ds
  induction ds with
  | nil => intro s; simp [streakLoop, leadingFullDone]
  | cons d rest ih =>
    intro s
    cases hfd : fullDoneOf (doneOf (map (dateKey d))) (totalOf (map (dateKey d)))
    · simp [streakLoop, leadingFullDone, recapRow, hfd]
    · have := ih (s + 1)
      simp only [leadingFullDone] at this
      simp only [streakLoop, hfd, if_true, this, leadingFullDone, List.map_cons, recapRow,
        List.takeWhile_cons, List.length_cons]
      omega

/-- The recap row of a date reads the map at the key of the date only. -/
theorem recapRow_congr (map1 map2 : DayMap) (d : JSDate)
    (h : map1 (dateKey d) = map2 (dateKey d)) : recapRow map1 d = recapRow map2 d := by
  simp only [recapRow, h]

/-- The leading run of a list followed by another, cut at the length of the first list, is
the leading run of the first list. -/
theorem takeWhile_append_min {α : Type} (p : α → Bool) : ∀ (l1 l2 : List α),
    min ((l1 ++ l2).takeWhile p).length l1.length = (l1.takeWhile p).length := by
  intro l1
  induction l1 with
  | nil => intro l2; simp
  | cons a l ih =>
    intro l2
    cases h : p a
    · simp [List.takeWhile_cons, h]
    · simp only [List.cons_append, List.takeWhile_cons, h, if_true, List.length_cons]
      have := ih l2
      omega

/-- C13: the streak scan and the recap use the same per-day semantics, in every time
zone. The first 7 dates of the scan are the 7 dates of the recap, and when the rows read
for the recap and the rows read for the streak hold the same value for each of these 7
days, the fullDone of each recap row is the flag that the scan computes for that day, and
the number of leading fullDone rows of the recap is min(streak, 7). In a zone that keeps
the local noon of each of the 7 days from today back, these 7 days are the 7 most recent
calendar days. -/
theorem streak_agrees_with_recap (zone : TimeZone) (now : JSDate)
    (data7 data30 : Option (List DayRow)) (prev : Nat)
    (hsame : ∀ d ∈ getLastNDates zone now 7,
      mapOf (data7.getD []) (dateKey d) = mapOf (data30.getD []) (dateKey d)) :
    (∀ i, i < 7 → (getLastNDates zone now 30)[i]? = (getLastNDates zone now 7)[i]?) ∧
    (∀ i, i < 7 → ∀ r, (recapEffect zone now (QueryResult.ok data7))[i]? = some r →
      r.fullDone = fullDoneOf (doneOf (mapOf (data30.getD []) (dateKey r.date)))
        (totalOf (mapOf (data30.getD []) (dateKey r.date)))) ∧
    leadingFullDone (recapEffect zone now (QueryResult.ok data7))
      = min (streakEffect zone now (QueryResult.ok data30) true prev) 7 ∧
    ((∀ i : Nat, i < 7 → KeepsNoon zone (now.day - (i : Int))) →
      (getLastNDates zone now 7).map dateKey = (List.range 7).map (keyDaysAgo now)) := by
  have hlen : (getLastNDates zone now 7).length = 7 := getLastNDates_length zone now 7
  have hrows : (getLastNDates zone now 7).map (recapRow (mapOf (data7.getD [])))
      = (getLastNDates zone now 7).map (recapRow (mapOf (data30.getD []))) :=
    List.map_congr_left (fun d hd => recapRow_congr _ _ d (hsame d hd))
  refine ⟨?_, ?_, ?_, ?_⟩
  · intro i hi
    rw [getLastNDates_thirty]
    exact List.getElem?_append_left (by omega)
  · intro i hi r hr
    have hmem : r ∈ (getLastNDates zone now 7).map (recapRow (mapOf (data30.getD []))) := by
      rw [← hrows]
      exact List.mem_iff_getElem?.mpr ⟨i, hr⟩
    obtain ⟨d, _, rfl⟩ := List.mem_map.mp hmem
    rfl
  · have hs : streakEffect zone now (QueryResult.ok data30) true prev
        = leadingFullDone ((getLastNDates zone now 30).map
            (recapRow (mapOf (data30.getD [])))) := by
      simp only [streakEffect, streakScan, streakLoop_eq_leading, if_true, Nat.zero_add]
    have hr : recapEffect zone now (QueryResult.ok data7)
        = (getLastNDates zone now 7).map (recapRow (mapOf (data30.getD []))) := by
      simp only [recapEffect, hrows]
    rw [hs, hr, getLastNDates_thirty, List.map_append]
    have h := takeWhile_append_min (fun r : RecapRow => r.fullDone)
      ((getLastNDates zone now 7).map (recapRow (mapOf (data30.getD []))))
      ((getLastNDatesLoop zone (now.setHours zone 12 0 0 0) 7 23).map
        (recapRow (mapOf (data30.getD []))))
    simp only [List.length_map, hlen] at h
    simp only [leadingFullDone]
    exact h.symm
  · intro hz
    rw [getLastNDates_eq zone now 7 hz, List.map_map]
    exact List.map_congr_left (fun i _ => dateKey_congr _ _ rfl)

/-- C13, on a store with today and yesterday fully done and one older day that only the
30-day read returns, in a zone at a fixed offset. -/
theorem streak_agrees_with_recap_witness :
    (∀ d ∈ getLastNDates utcZone (JSDate.mk 19723 61200000) 7,
      mapOf ((some [⟨"2024-01-01", ItemsVal.arr [⟨"a", "t", true, JSVal.str "med"⟩]⟩,
                    ⟨"2023-12-31", ItemsVal.arr [⟨"b", "t", true, JSVal.str "med"⟩]⟩] :
              Option (List DayRow)).getD []) (dateKey d)
      = mapOf ((some [⟨"2023-12-20", ItemsVal.arr [⟨"c", "t", true, JSVal.str "med"⟩]⟩,
                      ⟨"2024-01-01", ItemsVal.arr [⟨"a", "t", true, JSVal.str "med"⟩]⟩,
                      ⟨"2023-12-31", ItemsVal.arr [⟨"b", "t", true, JSVal.str "med"⟩]⟩] :
              Option (List DayRow)).getD []) (dateKey d)) ∧
    leadingFullDone (recapEffect utcZone (JSDate.mk 19723 61200000)
        (QueryResult.ok (some [⟨"2024-01-01", ItemsVal.arr [⟨"a", "t", true, JSVal.str "med"⟩]⟩,
          ⟨"2023-12-31", ItemsVal.arr [⟨"b", "t", true, JSVal.str "med"⟩]⟩])))
      = min (streakEffect utcZone (JSDate.mk 19723 61200000)
          (QueryResult.ok (some [⟨"2023-12-20", ItemsVal.arr [⟨"c", "t", true, JSVal.str "med"⟩]⟩,
            ⟨"2024-01-01", ItemsVal.arr [⟨"a", "t", true, JSVal.str "med"⟩]⟩,
            ⟨"2023-12-31", ItemsVal.arr [⟨"b", "t", true, JSVal.str "med"⟩]⟩])) true 0) 7 :=
  ⟨by decide,
   (streak_agrees_with_recap utcZone (JSDate.mk 19723 61200000) _ _ 0 (by decide)).2.2.1⟩

/-- The save effect over a task list that is not empty issues one write of that list. -/
theorem saveTodayEffect_nonempty (userId dayISO : String) (tasks : List Item) (saveOk : Bool)
    (db : DailyTable) (h : tasks ≠ []) :
    saveTodayEffect userId dayISO tasks saveOk db
      = ([⟨userId, dayISO, tasks⟩], if saveOk then db.upsert userId dayISO tasks else db) := by
  have hl : tasks.length ≠ 0 := by
    intro h0; exact h (List.length_eq_zero.mp h0)
  cases saveOk <;> simp [saveTodayEffect, hl, saveDailyToDB]

/-- The save effect over an empty task list issues no write. -/
theorem saveTodayEffect_nil (userId dayISO : String) (saveOk : Bool) (db : DailyTable) :
    saveTodayEffect userId dayISO [] saveOk db = ([], db) := rfl

/-- C14 fails for the empty list: removing the only task gives an empty task list, for
which the save effect issues no write, and the table keeps the snapshot with the removed
task. -/
theorem empty_list_not_persisted_counterexample :
    (applyTodayAction (TodayAction.remove "a")
      (exampleDashboard [⟨"a", "Cek email masuk", false, JSVal.str "med"⟩] [])).tasks = [] ∧
    (saveTodayEffect "u" "2024-01-01"
      (applyTodayAction (TodayAction.remove "a")
        (exampleDashboard [⟨"a", "Cek email masuk", false, JSVal.str "med"⟩] [])).tasks true
      (emptyTable.upsert "u" "2024-01-01"
        [⟨"a", "Cek email masuk", false, JSVal.str "med"⟩])).1 = [] ∧
    (saveTodayEffect "u" "2024-01-01"
      (applyTodayAction (TodayAction.remove "a")
        (exampleDashboard [⟨"a", "Cek email masuk", false, JSVal.str "med"⟩] [])).tasks true
      (emptyTable.upsert "u" "2024-01-01"
        [⟨"a", "Cek email masuk", false, JSVal.str "med"⟩])).2 "u" "2024-01-01"
      = some (ItemsVal.arr [⟨"a", "Cek email masuk", false, JSVal.str "med"⟩]) := by
  decide

/-- C14, amended: for every mutating action (toggle, add, remove, edit, mark all, unmark
all, confirmed reset) that produces a task list L that is not empty, the save effect
issues one write for the user and today whose items are exactly L, and the row holds L
when the write succeeds; when L is empty the save effect issues no write and leaves the
table as it was. -/
theorem mutation_persisted_unless_empty (userId dayISO : String) (a : TodayAction)
    (s : Dashboard) (saveOk : Bool) (db : DailyTable) :
    ((applyTodayAction a s).tasks ≠ [] →
      (saveTodayEffect userId dayISO (applyTodayAction a s).tasks saveOk db).1
        = [⟨userId, dayISO, (applyTodayAction a s).tasks⟩] ∧
      (saveOk = true →
        (saveTodayEffect userId dayISO (applyTodayAction a s).tasks saveOk db).2
          = db.upsert userId dayISO (applyTodayAction a s).tasks)) ∧
    ((applyTodayAction a s).tasks = [] →
      saveTodayEffect userId dayISO (applyTodayAction a s).tasks saveOk db = ([], db)) := by
  constructor
  · intro h
    rw [saveTodayEffect_nonempty userId dayISO _ saveOk db h]
    refine ⟨rfl, ?_⟩
    intro hs; simp [hs]
  · intro h
    rw [h]; rfl

/-- C19: when the range read fails, the recap effect sets an empty recap, in which no row
has a non-zero total, done or percent, so that `recapEmpty` holds, and the streak effect
sets 0; both effects return normally. -/
theorem range_read_failure_degrades (zone : TimeZone) (now : JSDate) (prev : Nat) :
    recapEffect zone now QueryResult.error = [] ∧
    (∀ r ∈ recapEffect zone now QueryResult.error,
      r.total = 0 ∧ r.done = 0 ∧ r.percent = 0) ∧
    recapEmpty (recapEffect zone now QueryResult.error) = true ∧
    streakEffect zone now QueryResult.error true prev = 0 := by
  refine ⟨rfl, ?_, rfl, rfl⟩
  intro r hr
  simp [recapEffect] at hr

/-- C18 fails on the write: when the read fails over a table that holds a done task for
today, the task list becomes the list built from the template and the save effect that
runs on the changed task list writes that list over the stored row. -/
theorem fallback_is_persisted_counterexample :
    (loadTodayEffect "u" "2024-01-01" [⟨"t1", "Cek email masuk", JSVal.str "med"⟩]
        false true true
        (emptyTable.upsert "u" "2024-01-01" [⟨"a", "Cek email masuk", true, JSVal.str "med"⟩])
        countingRng).tasksAfter []
      = [⟨"0", "Cek email masuk", false, JSVal.str "med"⟩] ∧
    (saveTodayEffect "u" "2024-01-01"
        ((loadTodayEffect "u" "2024-01-01" [⟨"t1", "Cek email masuk", JSVal.str "med"⟩]
          false true true
          (emptyTable.upsert "u" "2024-01-01"
            [⟨"a", "Cek email masuk", true, JSVal.str "med"⟩])
          countingRng).tasksAfter [])
        true
        (emptyTable.upsert "u" "2024-01-01"
          [⟨"a", "Cek email masuk", true, JSVal.str "med"⟩])).1
      = [⟨"u", "2024-01-01", [⟨"0", "Cek email masuk", false, JSVal.str "med"⟩]⟩] ∧
    (saveTodayEffect "u" "2024-01-01"
        ((loadTodayEffect "u" "2024-01-01" [⟨"t1", "Cek email masuk", JSVal.str "med"⟩]
          false true true
          (emptyTable.upsert "u" "2024-01-01"
            [⟨"a", "Cek email masuk", true, JSVal.str "med"⟩])
          countingRng).tasksAfter [])
        true
        (emptyTable.upsert "u" "2024-01-01"
          [⟨"a", "Cek email masuk", true, JSVal.str "med"⟩])).2 "u" "2024-01-01"
      = some (ItemsVal.arr [⟨"0", "Cek email masuk", false, JSVal.str "med"⟩]) := by
  decide

/-- C18, amended: when the load fails, or the save of a freshly seeded list fails, the
task list becomes `buildDailyFromTemplate(template)`, the load step returns normally and
itself issues no write for the fallback (the table is as before the step); the save
effect that runs on the changed task list then issues one write of the fallback list when
that list is not empty, and none when it is empty. -/
theorem fallback_outcome (userId dayISO : String) (template : List TemplateItem)
    (alive saveOk : Bool) (db : DailyTable) (rng : Rng) (prev : List Item) :
    ((loadTodayEffect userId dayISO template false alive saveOk db rng).tasksAfter prev
        = (buildDailyFromTemplate template rng).1 ∧
      (loadTodayEffect userId dayISO template false alive saveOk db rng).saves = [] ∧
      (loadTodayEffect userId dayISO template false alive saveOk db rng).db = db) ∧
    ((loadDailyFromDB db true userId dayISO = Except.ok none ∨
        loadDailyFromDB db true userId dayISO = Except.ok (some [])) →
      (loadTodayEffect userId dayISO template true true false db rng).tasksAfter prev
        = (buildDailyFromTemplate template (buildDailyFromTemplate template rng).2).1 ∧
      (loadTodayEffect userId dayISO template true true false db rng).saves
        = [⟨userId, dayISO, (buildDailyFromTemplate template rng).1⟩] ∧
      (loadTodayEffect userId dayISO template true true false db rng).db = db) ∧
    (∀ (fallback : List Item) (saveOk2 : Bool), fallback ≠ [] →
      (saveTodayEffect userId dayISO fallback saveOk2 db).1 = [⟨userId, dayISO, fallback⟩]) ∧
    (∀ saveOk2 : Bool, saveTodayEffect userId dayISO [] saveOk2 db = ([], db)) := by
  refine ⟨?_, ?_, ?_, fun _ => rfl⟩
  · simp [loadTodayEffect, loadDailyFromDB, EffectOutcome.tasksAfter]
  · intro h
    rcases h with h | h <;>
      simp [loadTodayEffect, h, saveDailyToDB, EffectOutcome.tasksAfter]
  · intro fallback saveOk2 h
    rw [saveTodayEffect_nonempty userId dayISO _ saveOk2 db h]

/-- Dropping a prefix leaves nothing exactly when every element is dropped. -/
theorem dropWhile_eq_nil {α : Type} (p : α → Bool) (l : List α) :
    l.dropWhile p = [] ↔ ∀ x ∈ l, p x = true := by
  induction l with
  | nil => simp
  | cons a l ih =>
    cases h : p a
    · simp [List.dropWhile, h]
    · simp [List.dropWhile, h, ih]

/-- A string trims to the empty string exactly when it is made of white space only. -/
theorem jsTrim_eq_empty_iff (s : String) :
    jsTrim s = "" ↔ ∀ c ∈ s.data, isTrimChar c = true := by
  unfold jsTrim
  constructor
  · intro h
    have h1 : ((s.data.dropWhile isTrimChar).reverse.dropWhile isTrimChar).reverse = [] := by
      have := congrArg String.data h
      simpa using this
    have h2 : (s.data.dropWhile isTrimChar).reverse.dropWhile isTrimChar = [] := by
      simpa using h1
    rw [dropWhile_eq_nil] at h2
    by_contra hne
    have hd : s.data.dropWhile isTrimChar ≠ [] := by
      intro he
      exact hne ((dropWhile_eq_nil _ _).mp he)
    obtain ⟨a, rest, hcons⟩ := List.exists_cons_of_ne_nil hd
    have hhead : isTrimChar a = false := by
      have := List.head_dropWhile_not isTrimChar s.data hd
      simpa [hcons] using this
    have hmem : a ∈ (s.data.dropWhile isTrimChar).reverse := by
      rw [hcons]; simp
    have := h2 a hmem
    rw [hhead] at this
    exact Bool.noConfusion this
  · intro h
    have h1 : s.data.dropWhile isTrimChar = [] := (dropWhile_eq_nil _ _).mpr h
    simp [h1]

/-- C17: when the title input is empty after trimming, that is empty or made of white
space only, each of `addTaskToday`, `saveEditToday`, `addTemplate` and `saveEditTemplate`
leaves the whole state, and so the task list and the template, exactly as it was. -/
theorem blank_title_is_noop (s : Dashboard) (id : String) :
    (jsTrim s.newTitle = "" → addTaskToday s = s) ∧
    (jsTrim s.editingTodayValue = "" → saveEditToday id s = s) ∧
    (jsTrim s.templateInput = "" → addTemplate s = s) ∧
    (jsTrim s.editingTemplateValue = "" → saveEditTemplate id s = s) ∧
    (∀ title : String, jsTrim title = "" ↔ ∀ c ∈ title.data, isTrimChar c = true) := by
  refine ⟨?_, ?_, ?_, ?_, jsTrim_eq_empty_iff⟩
  · intro h; simp [addTaskToday, h]
  · intro h; simp [saveEditToday, h]
  · intro h; simp [addTemplate, h]
  · intro h; simp [saveEditTemplate, h]

/-- The streak is 0 when the list stored for the first scanned date is not fully done, in
every zone. -/
theorem streakScan_zero_first (zone : TimeZone) (now : JSDate) (map : DayMap)
    (l : List Item) (d0 : JSDate) (rest : List JSDate)
    (hd : getLastNDates zone now 30 = d0 :: rest)
    (hm : map (dateKey d0) = some (ItemsVal.arr l))
    (hn : ¬ (l ≠ [] ∧ ∀ t ∈ l, t.done = true)) : streakScan zone now map = 0 := by
  have hfd : ¬ FullyDone map (dateKey d0) := by
    rintro ⟨l2, h2, h3, h4⟩
    rw [hm] at h2
    have : l = l2 := by simpa using h2
    subst this
    exact hn ⟨h3, h4⟩
  have hf : fullDoneOf (doneOf (map (dateKey d0))) (totalOf (map (dateKey d0))) = false := by
    rw [← Bool.not_eq_true, fullDoneOf_iff]; exact hfd
  unfold streakScan
  rw [hd]
  simp [streakLoop, hf]

/-- In a zone that keeps the noon of today, the first scanned date is the noon of today. -/
theorem getLastNDates_head (zone : TimeZone) (now : JSDate) (n : Nat)
    (hz : KeepsNoon zone now.day) :
    getLastNDates zone now (n + 1) = noonDaysAgo now 0
      :: getLastNDatesLoop zone (now.setHours zone 12 0 0 0) 1 n := by
  have hb : now.setHours zone 12 0 0 0 = { day := now.day, msOfDay := 43200000 } :=
    setHours_noon zone now hz
  have hd := setDate_back zone (now.setHours zone 12 0 0 0) 0 (by rw [hb])
    (by rw [hb]; simpa using hz)
  simp only [getLastNDates, getLastNDatesLoop, hd]
  rw [hb]
  rfl

/-- The streak is 0 when the list stored for today is not fully done, in a zone that keeps
the noon of today. -/
theorem streakScan_zero (zone : TimeZone) (now : JSDate) (map : DayMap) (l : List Item)
    (hz : KeepsNoon zone now.day)
    (hm : map (keyDaysAgo now 0) = some (ItemsVal.arr l))
    (hn : ¬ (l ≠ [] ∧ ∀ t ∈ l, t.done = true)) : streakScan zone now map = 0 :=
  streakScan_zero_first zone now map l _ _ (getLastNDates_head zone now 29 hz)
    (by rw [dateKey_congr (noonDaysAgo now 0) { now with day := now.day - ((0 : Nat) : Int) } rfl]
        exact hm) hn

/-- Three tasks of which two are done: the progress, the recap row and the streak, in a
zone at a fixed offset. -/
theorem progress_two_of_three :
    doneCount [⟨"a", "Cek email masuk", true, JSVal.str "med"⟩,
               ⟨"b", "Follow up yang pending", true, JSVal.str "high"⟩,
               ⟨"c", "Rapikan dokumen kantor", false, JSVal.str "low"⟩] = 2 ∧
    progress [⟨"a", "Cek email masuk", true, JSVal.str "med"⟩,
              ⟨"b", "Follow up yang pending", true, JSVal.str "high"⟩,
              ⟨"c", "Rapikan dokumen kantor", false, JSVal.str "low"⟩] = 67 ∧
    recapRow (mapOf [⟨"2024-01-01", ItemsVal.arr
        [⟨"a", "Cek email masuk", true, JSVal.str "med"⟩,
         ⟨"b", "Follow up yang pending", true, JSVal.str "high"⟩,
         ⟨"c", "Rapikan dokumen kantor", false, JSVal.str "low"⟩]⟩])
        (JSDate.mk 19723 43200000)
      = { date := JSDate.mk 19723 43200000, total := 3, done := 2, percent := 67,
          fullDone := false } ∧
    streakEffect utcZone (JSDate.mk 19723 61200000)
      (QueryResult.ok (some [⟨"2024-01-01", ItemsVal.arr
        [⟨"a", "Cek email masuk", true, JSVal.str "med"⟩,
         ⟨"b", "Follow up yang pending", true, JSVal.str "high"⟩,
         ⟨"c", "Rapikan dokumen kantor", false, JSVal.str "low"⟩]⟩])) true 5 = 0 := by
  decide

/-- C20: for every task list L, `doneCount` is the number of done items of L, the recap
row of a day whose stored list is L has total and done of L and percent equal to
`progress`, and when L is not fully done the streak over a store that holds L for today
is 0: in every time zone the streak is 0 when L is stored for the first date of the scan,
and that date is today in a zone that keeps the local noon of today. For three tasks of
which two are done, doneCount is 2, progress is 67, the recap row is {total 3, done 2,
percent 67, fullDone false} and the streak is 0. -/
theorem progress_agrees_with_recap (tasks : List Item) :
    doneCount tasks = tasks.countP (fun t => t.done) ∧
    (∀ (map : DayMap) (d : JSDate), map (dateKey d) = some (ItemsVal.arr tasks) →
      (recapRow map d).total = tasks.length ∧ (recapRow map d).done = doneCount tasks ∧
      (recapRow map d).percent = progress tasks) ∧
    (∀ (zone : TimeZone) (now : JSDate) (map : DayMap), KeepsNoon zone now.day →
      map (keyDaysAgo now 0) = some (ItemsVal.arr tasks) →
      ¬ (tasks ≠ [] ∧ ∀ t ∈ tasks, t.done = true) → streakScan zone now map = 0) ∧
    (∀ (zone : TimeZone) (now : JSDate) (data : Option (List DayRow)) (prev : Nat),
      KeepsNoon zone now.day →
      mapOf (data.getD []) (keyDaysAgo now 0) = some (ItemsVal.arr tasks) →
      ¬ (tasks ≠ [] ∧ ∀ t ∈ tasks, t.done = true) →
      streakEffect zone now (QueryResult.ok data) true prev = 0) ∧
    (∀ (zone : TimeZone) (now : JSDate) (map : DayMap) (d0 : JSDate) (rest : List JSDate),
      getLastNDates zone now 30 = d0 :: rest →
      map (dateKey d0) = some (ItemsVal.arr tasks) →
      ¬ (tasks ≠ [] ∧ ∀ t ∈ tasks, t.done = true) → streakScan zone now map = 0) ∧
    (∀ (zone : TimeZone) (now : JSDate), KeepsNoon zone now.day →
      (getLastNDates zone now 30)[0]? = some (noonDaysAgo now 0)) ∧
    (doneCount [⟨"a", "Cek email masuk", true, JSVal.str "med"⟩,
               ⟨"b", "Follow up yang pending", true, JSVal.str "high"⟩,
               ⟨"c", "Rapikan dokumen kantor", false, JSVal.str "low"⟩] = 2 ∧
    progress [⟨"a", "Cek email masuk", true, JSVal.str "med"⟩,
              ⟨"b", "Follow up yang pending", true, JSVal.str "high"⟩,
              ⟨"c", "Rapikan dokumen kantor", false, JSVal.str "low"⟩] = 67 ∧
    recapRow (mapOf [⟨"2024-01-01", ItemsVal.arr
        [⟨"a", "Cek email masuk", true, JSVal.str "med"⟩,
         ⟨"b", "Follow up yang pending", true, JSVal.str "high"⟩,
         ⟨"c", "Rapikan dokumen kantor", false, JSVal.str "low"⟩]⟩])
        (JSDate.mk 19723 43200000)
      = { date := JSDate.mk 19723 43200000, total := 3, done := 2, percent := 67,
          fullDone := false } ∧
    streakEffect utcZone (JSDate.mk 19723 61200000)
      (QueryResult.ok (some [⟨"2024-01-01", ItemsVal.arr
        [⟨"a", "Cek email masuk", true, JSVal.str "med"⟩,
         ⟨"b", "Follow up yang pending", true, JSVal.str "high"⟩,
         ⟨"c", "Rapikan dokumen kantor", false, JSVal.str "low"⟩]⟩])) true 5 = 0) := by
  refine ⟨?_, ?_, ?_, ?_, ?_, ?_, progress_two_of_three⟩
  · simp [doneCount, List.countP_eq_length_filter]
  · intro map d h
    simp [recapRow, h, totalOf, doneOf, doneCount, progress, percentOf]
  · intro zone now map hz hm hn
    exact streakScan_zero zone now map tasks hz hm hn
  · intro zone now data prev hz hm hn
    exact streakScan_zero zone now _ tasks hz hm hn
  · intro zone now map d0 rest hd hm hn
    exact streakScan_zero_first zone now map tasks d0 rest hd hm hn
  · intro zone now hz
    rw [getLastNDates_head zone now 29 hz]
    rfl

/-- Joining lines whose first line is a concatenation. -/
theorem joinLines_append_head (x y : String) (rest : List String) :
    joinLines ((x ++ y) :: rest) = x ++ joinLines (y :: rest) := by
  cases rest with
  | nil => rfl
  | cons b rest => simp [joinLines, String.append_assoc]

/-- The loop of `intercalate` joins the accumulated string and the remaining strings. -/
theorem intercalate_go_eq (l : List String) : ∀ acc : String,
    String.intercalate.go acc "\n" l = joinLines (acc :: l) := by
  induction l with
  | nil => intro acc; rfl
  | cons b rest ih =>
    intro acc
    simp only [String.intercalate.go, ih]
    rw [String.append_assoc, joinLines_append_head, joinLines_append_head]
    simp [joinLines, String.append_assoc]

/-- Joining with a newline puts the strings on lines of their own. -/
theorem jsJoin_newline (l : List String) : jsJoin l "\n" = joinLines l := by
  cases l with
  | nil => rfl
  | cons a rest => exact intercalate_go_eq rest a

/-- A string needs quoting exactly when it contains a double quote, a comma or a newline. -/
theorem needsQuoting_iff (s : String) :
    needsQuoting s = true ↔ ∃ c ∈ s.data, c = '"' ∨ c = ',' ∨ c = '\n' := by
  simp [needsQuoting, List.any_eq_true, or_assoc]

/-- Quoting of a concatenation. -/
theorem needsQuoting_append (a b : String) :
    needsQuoting (a ++ b) = (needsQuoting a || needsQuoting b) := by
  simp [needsQuoting, String.data_append, List.any_append]

/-- The character of a decimal digit is no double quote, comma or newline. -/
theorem digitChar_plain (d : Nat) (h : d < 10) :
    (Nat.digitChar d = '"' ∨ Nat.digitChar d = ',' ∨ Nat.digitChar d = '\n') → False := by
  interval_cases d <;> decide

/-- The decimal numeral of a natural number needs no quoting. -/
theorem needsQuoting_repr (n : Nat) : needsQuoting (Nat.repr n) = false := by
  rcases Nat.eq_zero_or_pos n with h | h
  · subst h; decide
  · rw [← Bool.not_eq_true, needsQuoting_iff, nat_repr_eq_digits n h]
    rintro ⟨c, hc, hs⟩
    simp only [List.mem_map, List.mem_reverse] at hc
    obtain ⟨d, hd, rfl⟩ := hc
    exact digitChar_plain d (Nat.digits_lt_base (by norm_num) hd) hs

/-- The string of an integer needs no quoting. -/
theorem needsQuoting_numberToString (n : Int) : needsQuoting (numberToString n) = false := by
  cases n with
  | ofNat m => exact needsQuoting_repr m
  | negSucc m =>
    rw [numberToString_neg, needsQuoting_append, needsQuoting_repr]
    decide

/-- The key of a date needs no quoting. -/
theorem needsQuoting_dateKey (d : JSDate) : needsQuoting (dateKey d) = false := by
  have hm := civil_month_bounds d.day
  have hd := civil_day_bounds d.day
  have em : d.getMonth + 1 = (((d.getMonth + 1).toNat : Nat) : Int) := by
    simp only [JSDate.getMonth]; omega
  have ed : d.getDate = ((d.getDate.toNat : Nat) : Int) := by
    simp only [JSDate.getDate]; omega
  have bm : 1 ≤ (d.getMonth + 1).toNat ∧ (d.getMonth + 1).toNat ≤ 31 := by
    simp only [JSDate.getMonth]; omega
  have bd : 1 ≤ d.getDate.toNat ∧ d.getDate.toNat ≤ 31 := by
    simp only [JSDate.getDate]; omega
  have two : ∀ n : Nat, n ≤ 31 →
      needsQuoting (String.mk [Nat.digitChar (n / 10), Nat.digitChar (n % 10)]) = false := by
    intro n hn
    rw [← Bool.not_eq_true, needsQuoting_iff]
    rintro ⟨c, hc, hs⟩
    simp only [List.mem_cons, List.mem_singleton, List.not_mem_nil, or_false] at hc
    rcases hc with rfl | rfl
    · exact digitChar_plain _ (by omega) hs
    · exact digitChar_plain _ (by omega) hs
  simp only [dateKey]
  rw [em, ed, padStart_two _ bm.1 bm.2, padStart_two _ bd.1 bd.2]
  simp only [needsQuoting_append, needsQuoting_numberToString, two _ bm.2, two _ bd.2,
    Bool.or_false, Bool.false_or]
  decide

/-- The function `escape` returns a string that needs no quoting unchanged. -/
theorem escape_plain (v : JSVal) (h : needsQuoting (stringOrEmpty v) = false) :
    escape v = stringOrEmpty v := by
  simp [escape, h]

/-- The line of a row as `toCsv` builds it. -/
theorem toCsv_line (r : RecapRow) :
    jsJoin
      [escape (JSVal.str (dateKey r.date)),
       escape (JSVal.num r.done),
       escape (JSVal.num r.total),
       escape (JSVal.num r.percent),
       escape (JSVal.str (if r.fullDone then "yes" else "no"))] "," = csvLine r := by
  have h1 : escape (JSVal.str (dateKey r.date)) = dateKey r.date :=
    escape_plain _ (needsQuoting_dateKey r.date)
  have h2 : ∀ n : Nat, escape (JSVal.num n) = numberToString n :=
    fun n => escape_plain _ (needsQuoting_numberToString n)
  have h3 : escape (JSVal.str (if r.fullDone then "yes" else "no"))
      = (if r.fullDone then "yes" else "no") := by
    cases r.fullDone <;> decide
  rw [h1, h2, h2, h2, h3]
  simp [jsJoin, String.intercalate, String.intercalate.go, csvLine]

/-- C15: `toCsv` returns the header line `date,done,total,percent,fullDone` followed by
one line per row in the order of the rows, joined by single newlines with no trailing
newline; the line of a row is the key of its date, done, total, percent and yes or no,
separated by commas. An empty list gives the header alone, and the row of 2024-01-01 with
done 3, total 5, percent 60 and fullDone false gives the line `2024-01-01,3,5,60,no`. -/
theorem toCsv_spec (rows : List RecapRow) :
    toCsv rows = joinLines ("date,done,total,percent,fullDone" :: rows.map csvLine) ∧
    toCsv [] = "date,done,total,percent,fullDone" ∧
    csvLine ⟨JSDate.mk 19723 43200000, 5, 3, 60, false⟩ = "2024-01-01,3,5,60,no" ∧
    toCsv [⟨JSDate.mk 19723 43200000, 5, 3, 60, false⟩]
      = "date,done,total,percent,fullDone\n2024-01-01,3,5,60,no" := by
  refine ⟨?_, by decide, by decide, by decide⟩
  simp only [toCsv, toCsv_line, jsJoin_newline]
  rfl

/-- C16: for every value with string form s (the empty string for null and undefined),
`escape` returns s unchanged when s contains no comma, double quote or newline, and
otherwise s between double quotes with every double quote of s doubled. -/
theorem escape_spec (v : JSVal) :
    (needsQuoting (stringOrEmpty v) = false → escape v = stringOrEmpty v) ∧
    (needsQuoting (stringOrEmpty v) = true →
      escape v = "\"" ++ doubleQuotes (stringOrEmpty v) ++ "\"") ∧
    (needsQuoting (stringOrEmpty v) = true ↔
      ∃ c ∈ (stringOrEmpty v).data, c = '"' ∨ c = ',' ∨ c = '\n') ∧
    (∀ s : String, (doubleQuotes s).data
      = s.data.flatMap (fun c => if c = '"' then ['"', '"'] else [c])) ∧
    stringOrEmpty JSVal.null = "" ∧ stringOrEmpty JSVal.undefined = "" ∧
    (∀ s : String, stringOrEmpty (JSVal.str s) = s) ∧
    escape (JSVal.str "a,\"b\"") = "\"a,\"\"b\"\"\"" := by
  refine ⟨escape_plain v, ?_, needsQuoting_iff _, fun _ => rfl, rfl, rfl, fun _ => rfl,
    by decide⟩
  intro h
  simp [escape, h]

/-! ## The reset modal, toggling, row bounds, valid priorities and distinct keys -/

/-- C21: `resetTodayFromTemplate` only opens the confirmation modal and leaves the task
list and the template unchanged; closing the modal leaves the task list unchanged; the
confirm button replaces the task list with `buildDailyFromTemplate(template)` and closes
the modal. In any state the confirm button changes the task list only when the modal is
open and holds the reset of today. -/
theorem reset_gated_by_confirmation (s : Dashboard) :
    ((resetTodayFromTemplate s).tasks = s.tasks ∧
      (resetTodayFromTemplate s).template = s.template ∧
      (resetTodayFromTemplate s).modal.isOpen = true ∧
      (resetTodayFromTemplate s).modal.onConfirm
        = some (ConfirmAction.resetToday s.template)) ∧
    ((modalClose (resetTodayFromTemplate s)).tasks = s.tasks ∧
      (modalClose (resetTodayFromTemplate s)).modal.isOpen = false ∧
      (modalClose (resetTodayFromTemplate s)).modal.onConfirm = none) ∧
    ((modalConfirm (resetTodayFromTemplate s)).tasks
        = (buildDailyFromTemplate s.template s.rng).1 ∧
      (modalConfirm (resetTodayFromTemplate s)).modal.isOpen = false) ∧
    (modalConfirm s).tasks
      = (if s.modal.isOpen then
          match s.modal.onConfirm with
          | some (ConfirmAction.resetToday template) =>
            (buildDailyFromTemplate template s.rng).1
          | _ => s.tasks
        else s.tasks) := by
  refine ⟨⟨rfl, rfl, rfl, rfl⟩, ⟨rfl, rfl, rfl⟩, ⟨rfl, rfl⟩, ?_⟩
  unfold modalConfirm
  split_ifs with h
  · rcases ho : s.modal.onConfirm with _ | a
    · simp [modalClose, runOnConfirm, ho]
    · cases a <;> simp [modalClose, runOnConfirm, ho, cancelEditToday, cancelEditTemplate]
  · rfl

/-- Toggling leaves a list without the identifier unchanged. -/
theorem toggle_map_absent (id : String) (l : List Item) (h : ∀ t ∈ l, t.id ≠ id) :
    l.map (fun t => if t.id = id then { t with done := !t.done } else t) = l := by
  induction l with
  | nil => rfl
  | cons a l ih =>
    have ha : a.id ≠ id := h a (List.mem_cons_self _ _)
    have hl : ∀ t ∈ l, t.id ≠ id := fun t ht => h t (List.mem_cons_of_mem _ ht)
    simp [List.map_cons, ha, ih hl]

/-- Toggling the same identifier twice gives the list back. -/
theorem toggle_map_twice (id : String) (l : List Item) :
    (l.map (fun t => if t.id = id then { t with done := !t.done } else t)).map
        (fun t => if t.id = id then { t with done := !t.done } else t) = l := by
  induction l with
  | nil => rfl
  | cons a l ih =>
    simp only [List.map_cons, ih]
    by_cases ha : a.id = id
    · cases a
      simp_all
    · simp [ha]

/-- C23: `toggleDone` returns a list of the same length and order in which the items with
the given id have their done flag negated and every other item and every other field is
unchanged; an id that occurs in no item leaves the list unchanged, and toggling twice with
the same id gives back the original list. -/
theorem toggleDone_spec (id : String) (s : Dashboard) :
    (toggleDone id s).tasks.length = s.tasks.length ∧
    (∀ i : Nat, (toggleDone id s).tasks[i]?
      = s.tasks[i]?.map (fun t =>
          ({ id := t.id, title := t.title, done := if t.id = id then !t.done else t.done,
             priority := t.priority } : Item))) ∧
    ((∀ t ∈ s.tasks, t.id ≠ id) → (toggleDone id s).tasks = s.tasks) ∧
    (toggleDone id (toggleDone id s)).tasks = s.tasks ∧
    toggleDone id (toggleDone id s) = s := by
  have h2 := toggle_map_twice id s.tasks
  refine ⟨by simp [toggleDone], ?_, ?_, ?_, ?_⟩
  · intro i
    simp only [toggleDone, List.getElem?_map]
    cases s.tasks[i]? with
    | none => rfl
    | some t =>
      simp only [Option.map_some']
      by_cases ht : t.id = id <;> simp [ht]
  · intro h
    simp only [toggleDone]
    exact toggle_map_absent id s.tasks h
  · simp only [toggleDone]; exact h2
  · simp only [toggleDone, h2]

/-- The counts of a recap row: done is at most total. -/
theorem doneOf_le_totalOf (arr : Option ItemsVal) : doneOf arr ≤ totalOf arr := by
  rcases arr with _ | v
  · simp [doneOf, totalOf]
  · cases v with
    | notArray => simp [doneOf, totalOf]
    | arr l => simpa [doneOf, totalOf] using List.length_filter_le _ l

/-- The bounds of a recap row. -/
theorem recapRow_invariant (map : DayMap) (d : JSDate) :
    (recapRow map d).done ≤ (recapRow map d).total ∧
    (recapRow map d).percent ≤ 100 ∧
    ((recapRow map d).done = 0 → (recapRow map d).percent = 0) ∧
    ((recapRow map d).fullDone = true → (recapRow map d).percent = 100) := by
  have hle := doneOf_le_totalOf (map (dateKey d))
  refine ⟨hle, percentOf_le_100 _ _ hle, ?_, ?_⟩
  · intro h
    simp only [recapRow] at h ⊢
    rw [h]; exact percentOf_zero _
  · intro h
    simp only [recapRow, fullDoneOf, Bool.and_eq_true, decide_eq_true_eq] at h ⊢
    rw [h.2]
    exact percentOf_self _ h.1

/-- C24: every recap row has 0 <= done <= total and 0 <= percent <= 100, percent 0
whenever done is 0, and percent 100 whenever fullDone holds; this holds for the row of
every day over every map and for every row that the recap effect sets. -/
theorem recap_row_bounds (map : DayMap) (d : JSDate) (zone : TimeZone) (now : JSDate)
    (res : QueryResult) :
    (0 ≤ (recapRow map d).done ∧ (recapRow map d).done ≤ (recapRow map d).total ∧
      0 ≤ (recapRow map d).percent ∧ (recapRow map d).percent ≤ 100 ∧
      ((recapRow map d).done = 0 → (recapRow map d).percent = 0) ∧
      ((recapRow map d).fullDone = true → (recapRow map d).percent = 100)) ∧
    (∀ r ∈ recapEffect zone now res,
      0 ≤ r.done ∧ r.done ≤ r.total ∧ 0 ≤ r.percent ∧ r.percent ≤ 100 ∧
      (r.done = 0 → r.percent = 0) ∧ (r.fullDone = true → r.percent = 100)) := by
  constructor
  · obtain ⟨a, b, c, e⟩ := recapRow_invariant map d
    exact ⟨Nat.zero_le _, a, Nat.zero_le _, b, c, e⟩
  · intro r hr
    cases res with
    | error => simp [recapEffect] at hr
    | ok data =>
      simp only [recapEffect, List.mem_map] at hr
      obtain ⟨d2, _, rfl⟩ := hr
      obtain ⟨a, b, c, e⟩ := recapRow_invariant (mapOf (data.getD [])) d2
      exact ⟨Nat.zero_le _, a, Nat.zero_le _, b, c, e⟩

/-- A normalised priority is valid. -/
theorem validPriority_normalize (p : JSVal) : ValidPriority (normalizePriority p) := by
  unfold ValidPriority
  by_cases h : PRIORITIES.contains p = true
  · have e : normalizePriority p = p := by unfold normalizePriority; rw [if_pos h]
    rw [e]
    have hm : p ∈ PRIORITIES := by simpa using h
    simpa [PRIORITIES] using hm
  · have e : normalizePriority p = JSVal.str "med" := by
      unfold normalizePriority; rw [if_neg h]
    rw [e]; exact Or.inr (Or.inl rfl)

/-- The built list has valid priorities, whatever the template holds. -/
theorem validTasks_build (template : List TemplateItem) : ∀ rng : Rng,
    ValidTasks (buildDailyFromTemplate template rng).1 := by
  induction template with
  | nil => intro rng t ht; simp [buildDailyFromTemplate] at ht
  | cons a rest ih =>
    intro rng t ht
    simp only [buildDailyFromTemplate, randomUUID, List.mem_cons] at ht
    rcases ht with rfl | ht
    · exact validPriority_normalize _
    · exact ih _ t ht

/-- The fresh copy of the default template has valid priorities. -/
theorem validTemplate_fresh (r : Rng) : ValidTemplate (freshDefaultTemplate r).1 := by
  intro t ht
  simp only [freshDefaultTemplate, randomUUID, List.mem_cons, List.mem_singleton,
    List.not_mem_nil, or_false] at ht
  rcases ht with rfl | rfl | rfl
  · exact Or.inr (Or.inl rfl)
  · exact Or.inl rfl
  · exact Or.inr (Or.inr rfl)

/-- The default template has valid priorities. -/
theorem validTemplate_default (r : Rng) : ValidTemplate (DEFAULT_TEMPLATE r).1 := by
  intro t ht
  simp only [DEFAULT_TEMPLATE, randomUUID, List.mem_cons, List.mem_singleton,
    List.not_mem_nil, or_false] at ht
  rcases ht with rfl | rfl | rfl
  · exact Or.inr (Or.inl rfl)
  · exact Or.inl rfl
  · exact Or.inr (Or.inr rfl)

/-- A template read from the table has valid priorities. -/
theorem validTemplate_load (db : TemplateTable) (ok : Bool) (userId : String)
    (l : List TemplateItem) (h : loadTemplateFromDB db ok userId = Except.ok (some l)) :
    ValidTemplate l := by
  unfold loadTemplateFromDB at h
  cases ok
  · simp at h
  · rcases hm : db userId with _ | v
    · simp [hm] at h
    · cases v with
      | notArray => simp [hm] at h
      | arr items =>
        simp only [hm, if_true, Except.ok.injEq, Option.some.injEq] at h
        subst h
        intro t ht
        simp only [List.mem_map] at ht
        obtain ⟨t0, _, rfl⟩ := ht
        exact validPriority_normalize _

/-- A task list read from the table has valid priorities. -/
theorem validTasks_load (db : DailyTable) (ok : Bool) (userId day : String)
    (l : List Item) (h : loadDailyFromDB db ok userId day = Except.ok (some l)) :
    ValidTasks l := by
  unfold loadDailyFromDB at h
  cases ok
  · simp at h
  · rcases hm : db userId day with _ | v
    · simp [hm] at h
    · cases v with
      | notArray => simp [hm] at h
      | arr items =>
        simp only [hm, if_true, Except.ok.injEq, Option.some.injEq] at h
        subst h
        intro t ht
        simp only [List.mem_map] at ht
        obtain ⟨t0, _, rfl⟩ := ht
        exact validPriority_normalize _

/-- Every list that the load-today effect sets has valid priorities. -/
theorem validTasks_loadTodayEffect (userId dayISO : String) (template : List TemplateItem)
    (loadOk alive saveOk : Bool) (db : DailyTable) (rng : Rng) :
    ∀ l ∈ (loadTodayEffect userId dayISO template loadOk alive saveOk db rng).setTasks,
      ValidTasks l := by
  intro l hl
  unfold loadTodayEffect at hl
  rcases hload : loadDailyFromDB db loadOk userId dayISO with e | fromDB
  · simp only [hload, List.mem_singleton] at hl
    subst hl; exact validTasks_build _ _
  · simp only [hload] at hl
    cases alive
    · simp at hl
    · rcases fromDB with _ | stored
      · cases saveOk <;> simp [saveDailyToDB] at hl
        · rcases hl with rfl | rfl <;> exact validTasks_build _ _
        · subst hl; exact validTasks_build _ _
      · cases stored with
        | nil =>
          cases saveOk <;> simp [saveDailyToDB] at hl
          · rcases hl with rfl | rfl <;> exact validTasks_build _ _
          · subst hl; exact validTasks_build _ _
        | cons t rest =>
          simp at hl
          subst hl
          exact validTasks_load db loadOk userId dayISO _ hload

/-- Every template that the load-template effect sets has valid priorities. -/
theorem validTemplate_loadTemplateEffect (userId : String) (loadOk alive saveOk : Bool)
    (db : TemplateTable) (rng : Rng) :
    ∀ l ∈ (loadTemplateEffect userId loadOk alive saveOk db rng).setTemplate,
      ValidTemplate l := by
  intro l hl
  unfold loadTemplateEffect at hl
  rcases hload : loadTemplateFromDB db loadOk userId with e | fromDB
  · simp only [hload, List.mem_singleton] at hl
    subst hl; exact validTemplate_fresh _
  · simp only [hload] at hl
    cases alive
    · simp at hl
    · rcases fromDB with _ | stored
      · cases saveOk <;> simp [saveTemplateToDB] at hl
        · rcases hl with rfl | rfl <;> exact validTemplate_fresh _
        · subst hl; exact validTemplate_fresh _
      · cases stored with
        | nil =>
          cases saveOk <;> simp [saveTemplateToDB] at hl
          · rcases hl with rfl | rfl <;> exact validTemplate_fresh _
          · subst hl; exact validTemplate_fresh _
        | cons t rest =>
          simp at hl
          subst hl
          exact validTemplate_load db loadOk userId _ hload


/-- Mapping tasks by a function that keeps priorities valid keeps the list valid. -/
theorem validTasks_map (f : Item → Item) (l : List Item)
    (hf : ∀ t, ValidPriority t.priority → ValidPriority (f t).priority)
    (h : ValidTasks l) : ValidTasks (l.map f) := by
  intro t ht
  simp only [List.mem_map] at ht
  obtain ⟨t0, h0, rfl⟩ := ht
  exact hf t0 (h t0 h0)

/-- Mapping entries by a function that keeps priorities valid keeps the template valid. -/
theorem validTemplate_map (f : TemplateItem → TemplateItem) (l : List TemplateItem)
    (hf : ∀ t, ValidPriority t.priority → ValidPriority (f t).priority)
    (h : ValidTemplate l) : ValidTemplate (l.map f) := by
  intro t ht
  simp only [List.mem_map] at ht
  obtain ⟨t0, h0, rfl⟩ := ht
  exact hf t0 (h t0 h0)

/-- The actions on today's task list keep the priorities of the state valid. -/
theorem validState_todayAction (a : TodayAction) (s : Dashboard) (hs : ValidState s) :
    ValidState (applyTodayAction a s) := by
  obtain ⟨h1, h2⟩ := hs
  cases a with
  | toggle id =>
    refine ⟨h1, validTasks_map _ _ ?_ h2⟩
    intro t ht; by_cases e : t.id = id <;> simp [e, ht]
  | add =>
    simp only [applyTodayAction, addTaskToday]
    split_ifs
    · exact ⟨h1, h2⟩
    · refine ⟨h1, ?_⟩
      intro t ht
      simp only [randomUUID, List.mem_cons] at ht
      rcases ht with rfl | ht
      · exact validPriority_normalize _
      · exact h2 t ht
  | remove id =>
    simp only [applyTodayAction, removeTaskToday]
    split_ifs
    · exact ⟨h1, fun t ht => h2 t (List.mem_of_mem_filter ht)⟩
    · exact ⟨h1, fun t ht => h2 t (List.mem_of_mem_filter ht)⟩
  | saveEdit id =>
    simp only [applyTodayAction, saveEditToday]
    split_ifs
    · exact ⟨h1, h2⟩
    · refine ⟨h1, validTasks_map _ _ ?_ h2⟩
      intro t ht
      by_cases e : t.id = id
      · simp only [e, if_true]; exact validPriority_normalize _
      · simp [e, ht]
  | markAll => exact ⟨h1, validTasks_map _ _ (fun t ht => ht) h2⟩
  | unmarkAll => exact ⟨h1, validTasks_map _ _ (fun t ht => ht) h2⟩
  | confirmReset => exact ⟨h1, validTasks_build _ _⟩

/-- The actions on the template keep the priorities of the state valid. -/
theorem validState_templateActions (s : Dashboard) (hs : ValidState s) :
    ValidState (addTemplate s) ∧ (∀ id, ValidState (saveEditTemplate id s)) ∧
    (∀ id, ValidState (removeTemplate id s)) ∧
    ValidState (modalConfirm (resetTemplateDefault s)) := by
  obtain ⟨h1, h2⟩ := hs
  refine ⟨?_, ?_, ?_, ?_⟩
  · simp only [addTemplate]
    split_ifs
    · exact ⟨h1, h2⟩
    · refine ⟨?_, h2⟩
      intro t ht
      simp only [randomUUID, List.mem_cons] at ht
      rcases ht with rfl | ht
      · exact validPriority_normalize _
      · exact h1 t ht
  · intro id
    simp only [saveEditTemplate]
    split_ifs
    · exact ⟨h1, h2⟩
    · refine ⟨validTemplate_map _ _ ?_ h1, h2⟩
      intro t ht
      by_cases e : t.id = id
      · simp only [e, if_true]; exact validPriority_normalize _
      · simp [e, ht]
  · intro id
    simp only [removeTemplate]
    split_ifs
    · exact ⟨fun t ht => h1 t (List.mem_of_mem_filter ht), h2⟩
    · exact ⟨fun t ht => h1 t (List.mem_of_mem_filter ht), h2⟩
  · exact ⟨validTemplate_fresh _, h2⟩

/-- C22: priorities are valid in the state. The default template and the first state, a
template read by `loadTemplateFromDB`, a task list read by `loadDailyFromDB` whatever
priorities are stored, a list built by `buildDailyFromTemplate` and every list set by the
load effects have priorities in {high, med, low}; and from a state with valid priorities
`addTaskToday`, `saveEditToday`, `addTemplate`, `saveEditTemplate`, toggle, remove, mark
all, unmark all and the confirmed resets lead to a state with valid priorities. -/
theorem priority_invariant (s : Dashboard) (hs : ValidState s) :
    (∀ r : Rng, ValidTemplate (DEFAULT_TEMPLATE r).1 ∧ ValidState (initialDashboard r)) ∧
    (∀ (db : TemplateTable) (ok : Bool) (userId : String) (l : List TemplateItem),
      loadTemplateFromDB db ok userId = Except.ok (some l) → ValidTemplate l) ∧
    (∀ (db : DailyTable) (ok : Bool) (userId day : String) (l : List Item),
      loadDailyFromDB db ok userId day = Except.ok (some l) → ValidTasks l) ∧
    (∀ (template : List TemplateItem) (rng : Rng),
      ValidTasks (buildDailyFromTemplate template rng).1) ∧
    (∀ (userId dayISO : String) (loadOk alive saveOk : Bool) (db : DailyTable),
      ∀ l ∈ (loadTodayEffect userId dayISO s.template loadOk alive saveOk db s.rng).setTasks,
        ValidTasks l) ∧
    (∀ (userId : String) (loadOk alive saveOk : Bool) (db : TemplateTable),
      ∀ l ∈ (loadTemplateEffect userId loadOk alive saveOk db s.rng).setTemplate,
        ValidTemplate l) ∧
    ValidState (addTaskToday s) ∧ (∀ id, ValidState (saveEditToday id s)) ∧
    ValidState (addTemplate s) ∧ (∀ id, ValidState (saveEditTemplate id s)) ∧
    (∀ id, ValidState (toggleDone id s)) ∧ (∀ id, ValidState (removeTaskToday id s)) ∧
    ValidState (markAllDone s) ∧ ValidState (unmarkAll s) ∧
    (∀ id, ValidState (removeTemplate id s)) ∧
    ValidState (modalConfirm (resetTodayFromTemplate s)) ∧
    ValidState (modalConfirm (resetTemplateDefault s)) := by
  obtain ⟨t1, t2, t3, t4⟩ := validState_templateActions s hs
  have ht := fun a => validState_todayAction a s hs
  refine ⟨fun r => ⟨validTemplate_default r, validTemplate_default r, ?_⟩,
    validTemplate_load, validTasks_load, validTasks_build,
    fun u d lo al so db => validTasks_loadTodayEffect u d s.template lo al so db s.rng,
    fun u lo al so db => validTemplate_loadTemplateEffect u lo al so db s.rng,
    ht TodayAction.add, fun id => ht (TodayAction.saveEdit id), t1, t2,
    fun id => ht (TodayAction.toggle id), fun id => ht (TodayAction.remove id),
    ht TodayAction.markAll, ht TodayAction.unmarkAll, t3, ht TodayAction.confirmReset, t4⟩
  intro t h
  simp [initialDashboard] at h

/-- A state with one task and one template entry, both of priority "high", is valid. -/
theorem validState_example :
    ValidState (exampleDashboard [⟨"a", "Cek email masuk", false, JSVal.str "high"⟩]
      [⟨"t1", "Cek email masuk", JSVal.str "high"⟩]) := by
  constructor
  · intro t ht
    simp only [exampleDashboard, List.mem_singleton] at ht
    subst ht; exact Or.inl rfl
  · intro t ht
    simp only [exampleDashboard, List.mem_singleton] at ht
    subst ht; exact Or.inl rfl

/-- C22, from a state with one task and one template entry, toggled. -/
theorem priority_invariant_witness :
    ValidState (exampleDashboard [⟨"a", "Cek email masuk", false, JSVal.str "high"⟩]
      [⟨"t1", "Cek email masuk", JSVal.str "high"⟩]) ∧
    ValidState (toggleDone "a"
      (exampleDashboard [⟨"a", "Cek email masuk", false, JSVal.str "high"⟩]
        [⟨"t1", "Cek email masuk", JSVal.str "high"⟩])) :=
  ⟨validState_example,
   (priority_invariant _ validState_example).2.2.2.2.2.2.2.2.2.2.1 "a"⟩

/-- Two decimal digits with the same character are equal. -/
theorem digitChar_inj (a b : Nat) (ha : a < 10) (hb : b < 10)
    (h : Nat.digitChar a = Nat.digitChar b) : a = b := by
  interval_cases a <;> interval_cases b <;> first | rfl | (exact absurd h (by decide))

/-- The numeral of a number is made of its printed digits, most significant first. -/
theorem nat_repr_eq_reprDigits (n : Nat) :
    Nat.repr n = String.mk ((reprDigits n).reverse.map Nat.digitChar) := by
  unfold reprDigits
  split_ifs with h
  · subst h; decide
  · exact nat_repr_eq_digits n (Nat.pos_of_ne_zero h)

/-- The printed digits are decimal digits. -/
theorem reprDigits_lt (n d : Nat) (h : d ∈ reprDigits n) : d < 10 := by
  unfold reprDigits at h
  split_ifs at h
  · simp at h; omega
  · exact Nat.digits_lt_base (by norm_num) h

/-- The printed digits determine the number. -/
theorem ofDigits_reprDigits (n : Nat) : Nat.ofDigits 10 (reprDigits n) = n := by
  unfold reprDigits
  split_ifs with h
  · subst h; simp [Nat.ofDigits]
  · exact Nat.ofDigits_digits 10 n

/-- The printed digits of a number are not empty. -/
theorem reprDigits_ne_nil (n : Nat) : reprDigits n ≠ [] := by
  unfold reprDigits
  split_ifs with h
  · simp
  · exact Nat.digits_ne_nil_iff_ne_zero.mpr h

/-- Two lists of decimal digits with the same characters are equal. -/
theorem map_digitChar_inj : ∀ (l1 l2 : List Nat), (∀ d ∈ l1, d < 10) → (∀ d ∈ l2, d < 10) →
    l1.map Nat.digitChar = l2.map Nat.digitChar → l1 = l2 := by
  intro l1
  induction l1 with
  | nil => intro l2 _ _ h; cases l2 with
    | nil => rfl
    | cons b l2 => simp at h
  | cons a l1 ih =>
    intro l2 h1 h2 h
    cases l2 with
    | nil => simp at h
    | cons b l2 =>
      simp only [List.map_cons, List.cons.injEq] at h
      have hab := digitChar_inj a b (h1 a (List.mem_cons_self _ _))
        (h2 b (List.mem_cons_self _ _)) h.1
      have hl := ih l2 (fun d hd => h1 d (List.mem_cons_of_mem _ hd))
        (fun d hd => h2 d (List.mem_cons_of_mem _ hd)) h.2
      rw [hab, hl]

/-- Two natural numbers with the same numeral are equal. -/
theorem nat_repr_inj (a b : Nat) (h : Nat.repr a = Nat.repr b) : a = b := by
  rw [nat_repr_eq_reprDigits a, nat_repr_eq_reprDigits b] at h
  have h1 : (reprDigits a).reverse.map Nat.digitChar = (reprDigits b).reverse.map Nat.digitChar :=
    congrArg String.data h
  have h2 := map_digitChar_inj _ _
    (fun d hd => reprDigits_lt a d (List.mem_reverse.mp hd))
    (fun d hd => reprDigits_lt b d (List.mem_reverse.mp hd)) h1
  have h3 : reprDigits a = reprDigits b := List.reverse_injective h2
  rw [← ofDigits_reprDigits a, ← ofDigits_reprDigits b, h3]

/-- The numeral of a natural number does not start with a minus sign. -/
theorem nat_repr_data_ne_minus (a : Nat) (rest : List Char) :
    (Nat.repr a).data ≠ '-' :: rest := by
  rw [nat_repr_eq_reprDigits a]
  intro h
  have hne := reprDigits_ne_nil a
  have hrev : (reprDigits a).reverse ≠ [] := by simpa using hne
  obtain ⟨d, ds, hd⟩ := List.exists_cons_of_ne_nil hrev
  have hdlt : d < 10 := reprDigits_lt a d (by
    have : d ∈ (reprDigits a).reverse := by rw [hd]; exact List.mem_cons_self _ _
    exact List.mem_reverse.mp this)
  simp only [hd, List.map_cons, List.cons.injEq] at h
  have h1 := h.1
  interval_cases d <;> exact absurd h1 (by decide)

/-- Two integers with the same string are equal. -/
theorem numberToString_inj (a b : Int) (h : numberToString a = numberToString b) : a = b := by
  cases a with
  | ofNat m =>
    cases b with
    | ofNat n =>
      have := nat_repr_inj m n (by simpa [numberToString_ofNat] using h)
      rw [this]
    | negSucc n =>
      exfalso
      have h1 : numberToString (Int.ofNat m) = Nat.repr m := numberToString_ofNat m
      rw [h1, numberToString_neg] at h
      have h2 := congrArg String.data h
      simp only [String.data_append] at h2
      exact nat_repr_data_ne_minus m _ h2
  | negSucc m =>
    cases b with
    | ofNat n =>
      exfalso
      have h1 : numberToString (Int.ofNat n) = Nat.repr n := numberToString_ofNat n
      rw [h1, numberToString_neg] at h
      have h2 := congrArg String.data h
      simp only [String.data_append] at h2
      exact nat_repr_data_ne_minus n _ h2.symm
    | negSucc n =>
      rw [numberToString_neg, numberToString_neg] at h
      have h2 := congrArg String.data h
      simp only [String.data_append, List.append_cancel_left_eq] at h2
      have h3 : Nat.repr (m + 1) = Nat.repr (n + 1) := String.ext h2
      have := nat_repr_inj _ _ h3
      have e : m = n := by omega
      rw [e]

/-- The characters of the key of a date: the string of the year and six more. -/
theorem dateKey_data (d : JSDate) :
    (dateKey d).data = (numberToString d.getFullYear).data ++
      ['-', Nat.digitChar ((d.getMonth + 1).toNat / 10),
        Nat.digitChar ((d.getMonth + 1).toNat % 10), '-',
        Nat.digitChar (d.getDate.toNat / 10), Nat.digitChar (d.getDate.toNat % 10)] := by
  have hm := civil_month_bounds d.day
  have hd := civil_day_bounds d.day
  have em : d.getMonth + 1 = (((d.getMonth + 1).toNat : Nat) : Int) := by
    simp only [JSDate.getMonth]; omega
  have ed : d.getDate = ((d.getDate.toNat : Nat) : Int) := by
    simp only [JSDate.getDate]; omega
  have bm : 1 ≤ (d.getMonth + 1).toNat ∧ (d.getMonth + 1).toNat ≤ 31 := by
    simp only [JSDate.getMonth]; omega
  have bd : 1 ≤ d.getDate.toNat ∧ d.getDate.toNat ≤ 31 := by
    simp only [JSDate.getDate]; omega
  have h1 : padStart (numberToString (d.getMonth + 1)) 2 "0"
      = String.mk [Nat.digitChar ((d.getMonth + 1).toNat / 10),
          Nat.digitChar ((d.getMonth + 1).toNat % 10)] := by
    rw [← padStart_two _ bm.1 bm.2, ← em]
  have h2 : padStart (numberToString d.getDate) 2 "0"
      = String.mk [Nat.digitChar (d.getDate.toNat / 10),
          Nat.digitChar (d.getDate.toNat % 10)] := by
    rw [← padStart_two _ bd.1 bd.2, ← ed]
  simp only [dateKey, h1, h2, String.data_append]
  simp

/-- Two numbers up to 31 with the same two digit characters are equal. -/
theorem two_digits_inj (a b : Nat) (ha : a ≤ 31) (hb : b ≤ 31)
    (h1 : Nat.digitChar (a / 10) = Nat.digitChar (b / 10))
    (h2 : Nat.digitChar (a % 10) = Nat.digitChar (b % 10)) : a = b := by
  have e1 := digitChar_inj _ _ (by omega) (by omega) h1
  have e2 := digitChar_inj _ _ (by omega) (by omega) h2
  omega

/-- Two dates with the same key have the same local year, month and day of month. -/
theorem localTriple_eq_of_dateKey_eq (d1 d2 : JSDate) (h : dateKey d1 = dateKey d2) :
    localTriple d1 = localTriple d2 := by
  have hd := congrArg String.data h
  rw [dateKey_data, dateKey_data] at hd
  obtain ⟨hy, hr⟩ := List.append_inj' hd rfl
  have hyear : d1.getFullYear = d2.getFullYear := numberToString_inj _ _ (String.ext hy)
  simp only [List.cons.injEq, and_true, true_and] at hr
  obtain ⟨m1, m0, e1, e0⟩ := hr
  have hm1 := civil_month_bounds d1.day
  have hm2 := civil_month_bounds d2.day
  have hd1 := civil_day_bounds d1.day
  have hd2 := civil_day_bounds d2.day
  have hmonth := two_digits_inj _ _
    (by simp only [JSDate.getMonth]; omega) (by simp only [JSDate.getMonth]; omega) m1 m0
  have hday := two_digits_inj _ _
    (by simp only [JSDate.getDate]; omega) (by simp only [JSDate.getDate]; omega) e1 e0
  have hmo : d1.getMonth = d2.getMonth := by
    simp only [JSDate.getMonth] at hmonth ⊢; omega
  have hda : d1.getDate = d2.getDate := by
    simp only [JSDate.getDate] at hday ⊢; omega
  simp only [localTriple, hyear, hmo, hda]

/-- C25: `dateKey` is injective on calendar days, with no restriction on the year: two
dates whose local (year, month, day) differ have different keys. -/
theorem dateKey_injective (d1 d2 : JSDate) (h : localTriple d1 ≠ localTriple d2) :
    dateKey d1 ≠ dateKey d2 :=
  fun hk => h (localTriple_eq_of_dateKey_eq d1 d2 hk)

/-- C25, at 9999-12-31 and 10000-01-01. -/
theorem dateKey_injective_witness :
    localTriple (JSDate.mk 2932896 0) ≠ localTriple (JSDate.mk 2932897 0) ∧
    dateKey (JSDate.mk 2932896 0) ≠ dateKey (JSDate.mk 2932897 0) :=
  ⟨by decide, dateKey_injective _ _ (by decide)⟩

end Checklist
